import Mathlib

/-!
# A shallow embedding of the Swift runtime dynamic-cast engine

This file models `stdlib/public/runtime/Casting.cpp` (the dynamic cast
runtime) and proves properties of the cast dispatch engine: the
ownership/flags protocol, failure behaviour, metatype casts, Optional
unwrapping, function-type compatibility and existential construction.

Modelled configuration: `SWIFT_OBJC_INTEROP` is enabled.  Collaborators
that live outside `Casting.cpp` are modelled as the spec directs:

* the Objective-C / foreign class ancestry checks
  (`swift_dynamicCastObjCClass`, `swift_dynamicCastForeignClassMetatype`,
  ...) are "their own equivalent ancestry check" — the same superclass
  walk as `_dynamicCastClassMetatype`;
* the foreign-object-model bridging capability (`findBridgeWitness`,
  NSError bridging, Objective-C protocol conformance checks) is the
  spec's "no-op/unavailable implementation": lookups return nothing and
  conformance checks return false;
* the value-witness operations (copy/take/destroy/project) are
  abstracted to their effect on a model `Value`.

Type descriptors are canonicalized/uniqued by the external type system,
so pointer equality in C++ is structural equality of `TypeDesc` here.

Machine effects are tracked explicitly: a cast returns whether it
succeeded, the completed destination value (if any), whether any write
(including scratch writes such as witness tables) reached the
destination buffer, and whether the engine released ownership of the
source value (by moving it or destroying it).  An unconditional-mode
abort is a `Except.error` carrying the two type descriptors named by
the diagnostic.
-/

set_option linter.unusedVariables false

namespace SwiftCast

/-- The three existential representations
(`ExistentialTypeRepresentation` in the runtime). -/
inductive ExistRepr where
  | classRepr
  | opaqueRepr
  | errorRepr
deriving DecidableEq, Repr

/-- Protocol dispatch strategy (`ProtocolDispatchStrategy`). -/
inductive PStrategy where
  | swiftStrategy
  | objcStrategy
  | emptyStrategy
deriving DecidableEq, Repr

/-- A protocol descriptor: identity plus the flags the cast engine
consults (`needsWitnessTable`, the `AnyObject` special-protocol flag and
the dispatch strategy). -/
structure ProtocolDesc where
  pid : Nat
  needsWitnessTable : Bool
  isAnyObject : Bool
  strategy : PStrategy
deriving DecidableEq, Repr

/-- Runtime type descriptors (`Metadata` with its `MetadataKind`), one
constructor per metadata kind that the cast engine dispatches on.

A class is represented by its superclass chain: `classTy (c :: rest)` is
the class whose identity is the whole list and whose superclass is
`classTy rest` (the chain is finite and acyclic by construction).
`objcWrapper` is `ObjCClassWrapper` (the spec's ReferenceWrapper) and
carries the chain of the wrapped class object. -/
inductive TypeDesc where
  | classTy (chain : List Nat)
  | objcWrapper (chain : List Nat)
  | foreignClassTy (chain : List Nat)
  | structTy (id : Nat)
  | enumTy (id : Nat)
  | optionalTy (payload : TypeDesc)
  | tupleTy (id : Nat)
  | functionTy (conv : Nat) (throws : Bool) (args : TypeDesc) (result : TypeDesc)
  | existentialTy (repr : ExistRepr) (classBounded : Bool) (protocols : List ProtocolDesc)
  | metatypeTy (instanceTy : TypeDesc)
  | existentialMetatypeTy (instanceTy : TypeDesc)
  | opaqueTy (id : Nat)
  | heapLocalTy (id : Nat)
  | heapGenericLocalTy (id : Nat)
  | errorObjectTy (id : Nat)
  /-- Spine constructors for a function type's ordered argument list:
  each node is one argument's type together with its by-reference
  (`inout`) flag.  These two constructors only ever appear in the
  `args` position of `functionTy` and are not metadata kinds. -/
  | argNil
  | argCons (ty : TypeDesc) (byRef : Bool) (rest : TypeDesc)
deriving DecidableEq, Repr

/-- Runtime values, as the cast engine observes them through a buffer.

* `ref` is a reference to a class instance: an object identity plus the
  dynamic class chain its isa points at.
* `classObject` is a class metadata used as an object
  (`swift_dynamicCastMetatypeToObjectConditional` produces these).
* `leaf` is an opaque value of a non-polymorphic type (struct, enum,
  tuple, opaque, heap-local, error-object).
* `funcVal` is a function value.
* `optNone`/`optSome` are the two cases of a single-payload Optional
  (layout compatible with its payload, tag observed via
  `swift_getEnumCaseSinglePayload`).
* `metatypeVal` is a stored metadata word (Metatype and
  ExistentialMetatype values).
* `existClass` is a `ClassExistentialContainer` (payload reference
  first, witness tables abstracted away).
* `existOpaque` is an `OpaqueExistentialContainer`: recorded dynamic
  type, whether the payload buffer is out of line (heap allocated), and
  the payload value.
* `errorBox` is an `ErrorProtocol` existential: a boxed payload with its
  recorded dynamic type (never a pure NSError here; NSError bridging is
  the unavailable foreign collaborator). -/
inductive Value where
  | ref (objId : Nat) (dynChain : List Nat)
  | classObject (meta : TypeDesc)
  | leaf (data : Nat)
  | funcVal (data : Nat)
  | optNone
  | optSome (payload : Value)
  | metatypeVal (stored : TypeDesc)
  | existClass (inner : Value)
  | existOpaque (dynTy : TypeDesc) (outOfLine : Bool) (payload : Value)
  | errorBox (dynTy : TypeDesc) (payload : Value)
deriving DecidableEq, Repr

/-- `DynamicCastFlags`: `Unconditional`, `TakeOnSuccess`,
`DestroyOnFailure`. -/
structure DynamicCastFlags where
  unconditional : Bool
  takeOnSuccess : Bool
  destroyOnFailure : Bool
deriving DecidableEq, Repr

/-- `DynamicCastFlags::Default` — no flags set. -/
def DynamicCastFlags.default : DynamicCastFlags :=
  { unconditional := false, takeOnSuccess := false, destroyOnFailure := false }

/-- The Conformance Oracle (`swift_conformsToProtocol`): for a type and
a witness-table-requiring protocol, optionally a witness table handle. -/
structure Oracle where
  conforms : TypeDesc → Nat → Option Nat

/-- Result of one cast call: whether it succeeded, the completed
destination value if one was constructed, whether any write (scratch
included) reached the destination buffer, and whether the engine
released ownership of the source (moved it out or destroyed it). -/
structure CastRes where
  success : Bool
  destVal : Option Value
  destTouched : Bool
  srcConsumed : Bool
deriving DecidableEq, Repr

/-- A cast either returns a `CastRes` or aborts the process;
the abort carries the source and target types the diagnostic names
(`swift_dynamicCastFailure`). -/
abbrev CastM := Except (TypeDesc × TypeDesc) CastRes

/-! ## Depth measures used for termination -/

/-- Termination measure on type descriptors: counts the nesting the
engine can project through (Optional payloads, metatype instance
types).  Existentials get depth 2 so a malformed-container projection
(which falls back to an opaque leaf type) still decreases. -/
def TypeDesc.depth : TypeDesc → Nat
  | .optionalTy p => p.depth + 1
  | .metatypeTy i => i.depth + 1
  | .existentialMetatypeTy i => i.depth + 1
  | .existentialTy _ _ _ => 2
  | _ => 1

/-- Termination measure on values: payload nesting depth. -/
def Value.depth : Value → Nat
  | .optSome w => w.depth + 1
  | .existClass inner => inner.depth + 1
  | .existOpaque _ _ p => p.depth + 1
  | .errorBox _ p => p.depth + 1
  | _ => 1

/-! ## Small kind and accessor helpers -/

/-- Is this metadata kind one of the class kinds
(`Metadata::isAnyKindOfClass`)? -/
def TypeDesc.isAnyKindOfClass : TypeDesc → Bool
  | .classTy _ | .objcWrapper _ | .foreignClassTy _ => true
  | _ => false

/-- Read a stored metadata word from a value
(`*(const Metadata **) value`).  A `classObject` reads back as the class
metadata it is.  Reading through a container reads its first word: an
inline opaque existential buffer and a class existential's reference
slot both sit at offset zero, so the read sees the payload's first
word; other malformed reads fall back to the metadata of an opaque
leaf (unreachable for well-formed calls). -/
def Value.asStoredMetadata : Value → TypeDesc
  | .metatypeVal m => m
  | .classObject m => m
  | .existOpaque _ false p => p.asStoredMetadata
  | .existClass inner => inner.asStoredMetadata
  | _ => .structTy 0

/-- Is this value a class metadata posing as an object? -/
def Value.isClassObject : Value → Bool
  | .classObject _ => true
  | _ => false

/-- `swift_getObjectType` (external, SwiftObject): the dynamic type of a
reference.  Modelled from the spec: a plain instance reports its
dynamic class; a type object reports the corresponding metatype. -/
def swift_getObjectType : Value → TypeDesc
  | .ref _ dynChain => .classTy dynChain
  | .classObject m => .metatypeTy m
  | _ => .classTy []

/-- `_swift_getClassOfAllocated` — the isa chain of an object.  A
malformed (non-reference) operand yields the empty chain. -/
def objIsaChain : Value → List Nat
  | .ref _ dynChain => dynChain
  | _ => []

/-- `_swift_getClass(object)`, used for failure diagnostics. -/
def objClassForDiag (v : Value) : TypeDesc :=
  .classTy (objIsaChain v)

/-- `isObjCTaggedPointerOrNull` — model objects are plain heap
references, never tagged pointers. -/
def isObjCTaggedPointerOrNull (_v : Value) : Bool := false

/-! ## The superclass walk -/

/-- `_swift_getSuperclass` on the chain representation. -/
def _swift_getSuperclass : List Nat → Option (List Nat)
  | [] => none
  | _ :: rest => if rest = [] then none else some rest

/-- `_dynamicCastClassMetatype`: walk the source class's superclass
chain looking for the target class; return the (unchanged) source class
on a hit. -/
def _dynamicCastClassMetatype (sourceType targetType : List Nat) :
    Option (List Nat) :=
  let rec walk : List Nat → Option (List Nat)
    | [] => none
    | c :: rest =>
      if c :: rest = targetType then some sourceType
      else if rest = [] then none else walk rest
  walk sourceType

/-- `swift_dynamicCastClass`: dynamic cast of a class instance to a
Swift class type (tagged-pointer check, isa lookup, superclass walk). -/
def swift_dynamicCastClass (object : Value) (targetType : List Nat) :
    Option Value :=
  if isObjCTaggedPointerOrNull object then none
  else
    let isa := objIsaChain object
    if (_dynamicCastClassMetatype isa targetType).isSome then some object
    else none

/-- Modelled from the spec: `swift_dynamicCastObjCClass` (defined in the
Objective-C interop layer, outside this file) performs the equivalent
ancestry check on the object's class. -/
def swift_dynamicCastObjCClass (object : Value) (targetType : List Nat) :
    Option Value :=
  if (_dynamicCastClassMetatype (objIsaChain object) targetType).isSome
  then some object else none

/-- Modelled from the spec: `swift_dynamicCastForeignClass` — foreign
classes "use their own equivalent ancestry check". -/
def swift_dynamicCastForeignClass (object : Value) (targetType : List Nat) :
    Option Value :=
  if (_dynamicCastClassMetatype (objIsaChain object) targetType).isSome
  then some object else none

/-- Modelled from the spec: `swift_dynamicCastObjCClassMetatype` — the
ancestry (superclass) walk on class metatypes. -/
def swift_dynamicCastObjCClassMetatype (sourceType targetType : List Nat) :
    Option (List Nat) :=
  _dynamicCastClassMetatype sourceType targetType

/-- Modelled from the spec: `swift_dynamicCastForeignClassMetatype` —
the ancestry walk for foreign class metatypes. -/
def swift_dynamicCastForeignClassMetatype (sourceType targetType : List Nat) :
    Option (List Nat) :=
  _dynamicCastClassMetatype sourceType targetType

/-! ## Protocol conformance checks -/

/-- `_conformsToProtocol`.  Returns whether the type conforms and the
witness table written into `conformance` (when requested and required).

The `AnyObject` special protocol is handled directly by kind.  Witness
table protocols delegate to the Conformance Oracle.  Objective-C
protocol checks delegate to the foreign-object-model collaborator,
which per spec §4.4 is unavailable and answers false. -/
def _conformsToProtocol (O : Oracle) (value : Option Value)
    (type : TypeDesc) (protocol : ProtocolDesc) (wantWitness : Bool) :
    Bool × Option Nat :=
  if protocol.isAnyObject then
    match type with
    | .classTy _ | .objcWrapper _ | .foreignClassTy _ => (true, none)
    | .existentialTy _ classBounded _ => (classBounded, none)
    | _ => (false, none)
  else if protocol.needsWitnessTable then
    match O.conforms type protocol.pid with
    | none => (false, none)
    | some w => (true, if wantWitness then some w else none)
  else
    -- Objective-C protocols: the foreign collaborator is unavailable,
    -- so every kind-based check answers false.
    (false, none)

/-- `_conformsToProtocols`: check every protocol in order, writing one
witness table per table-requiring protocol into the destination as it
goes.  Returns overall success and the (possibly partial, on failure)
list of tables already written. -/
def _conformsToProtocols (O : Oracle) (value : Option Value)
    (type : TypeDesc) (protocols : List ProtocolDesc) (wantWitness : Bool) :
    Bool × List Nat :=
  match protocols with
  | [] => (true, [])
  | p :: rest =>
    match _conformsToProtocol O value type p wantWitness with
    | (false, _) => (false, [])
    | (true, w) =>
      let (ok, ws) := _conformsToProtocols O value type rest wantWitness
      (ok, w.toList ++ ws)

/-! ## The ownership rule and the failure/success helpers -/

/-- `shouldDeallocateSource`: the derived ownership rule. -/
def shouldDeallocateSource (castSucceeded : Bool) (flags : DynamicCastFlags) :
    Bool :=
  (castSucceeded && flags.takeOnSuccess) ||
    (!castSucceeded && flags.destroyOnFailure)

/-- `_fail`: under `Unconditional` abort with a diagnostic naming the
(dynamic, if known) source type and the target type; otherwise destroy
the source when `DestroyOnFailure` is set and return false. -/
def _fail (srcValue : Value) (srcType targetType : TypeDesc)
    (flags : DynamicCastFlags) (srcDynamicType : Option TypeDesc := none) :
    CastM :=
  if flags.unconditional then
    .error (srcDynamicType.getD srcType, targetType)
  else
    .ok { success := false, destVal := none, destTouched := false,
          srcConsumed := flags.destroyOnFailure }

/-- `_succeed`: initialize the destination with take (when
`TakeOnSuccess`) or copy; either way the destination holds the source
value. -/
def _succeed (src : Value) (srcType : TypeDesc) (flags : DynamicCastFlags) :
    CastM :=
  .ok { success := true, destVal := some src, destTouched := true,
        srcConsumed := flags.takeOnSuccess }

/-- Merge scratch destination writes (witness tables, proactive
metatype words) into a cast result. -/
def withDestWrites (touched : Bool) : CastM → CastM
  | .error e => .error e
  | .ok r => .ok { r with destTouched := r.destTouched || touched }

/-! ## Existential projection -/

/-- Project a `ClassExistentialContainer`'s stored reference.  The
payload pointer is the container's first field, so its address equals
the container's.  A malformed container reads as itself. -/
def Value.existClassInner : Value → Value
  | .existClass inner => inner
  | v => v

/-- Modelled from the spec: `ExistentialTypeMetadata::projectValue` /
`getDynamicType` for the inline/boxed (Opaque) representation — these
live in the Metadata implementation, outside this file.  Projects the
recorded dynamic type, whether the payload buffer is out of line, and
the payload.  A malformed container degrades to an opaque leaf type of
itself. -/
def Value.projectOpaque : Value → TypeDesc × Bool × Value
  | .existOpaque dynTy outOfLine payload => (dynTy, outOfLine, payload)
  | v => (.structTy 0, false, v)

/-- Modelled from the spec: payload projection of an error-box
existential (`SwiftError::getType` / `getValue`).  NSError bridging is
the unavailable foreign collaborator, so a box is never a pure
NSError. -/
def Value.projectErrorBox : Value → TypeDesc × Value
  | .errorBox dynTy payload => (dynTy, payload)
  | v => (.structTy 0, v)

/-- Result of `findDynamicValueAndType`: the innermost payload, its
dynamic type, the takability flag, and whether the payload sits at the
same address as the original buffer (the model of the `src !=
srcDynamicValue` pointer comparisons at the call sites). -/
structure DynValue where
  value : Value
  type : TypeDesc
  canTake : Bool
  addrSame : Bool
deriving DecidableEq, Repr

/-- `findDynamicValueAndType`: given a possibly-existential value, find
its dynamic type and the address of its storage, intersecting the
caller's takability with each traversed container's permission to take.

Modelled from the spec: `mayTakeValue` (Metadata implementation,
outside this file) — an inline/boxed opaque container's payload may be
taken; an error box holding a possibly-shared box must never be taken,
only copied. -/
def findDynamicValueAndType (value : Value) (type : TypeDesc)
    (inoutCanTake : Bool) (addrSame : Bool) : DynValue :=
  match type with
  | .classTy _ | .objcWrapper _ | .foreignClassTy _ =>
    { value := value, type := swift_getObjectType value,
      canTake := inoutCanTake, addrSame := addrSame }
  | .existentialTy r _ _ =>
    match r with
    | .classRepr =>
      -- Class existentials cannot recursively contain existential
      -- containers; the stored reference is the container's first
      -- field, so its address is the container's address.
      let inner := value.existClassInner
      { value := inner, type := swift_getObjectType inner,
        canTake := inoutCanTake, addrSame := addrSame }
    | .opaqueRepr =>
      -- `projectValue`: an inline buffer is the container's first
      -- field; an out-of-line payload lives in a separate heap
      -- allocation.  `mayTakeValue` is true for this representation.
      match value with
      | .existOpaque innerType outOfLine innerValue =>
        findDynamicValueAndType innerValue innerType
          (inoutCanTake && true) (addrSame && !outOfLine)
      | v =>
        -- Malformed container: degrade to an opaque leaf.
        findDynamicValueAndType v (.structTy 0)
          (inoutCanTake && true) addrSame
    | .errorRepr =>
      -- Error boxes may be shared: mayTakeValue is false, and the
      -- boxed payload never shares the source buffer's address.
      match value with
      | .errorBox innerType innerValue =>
        findDynamicValueAndType innerValue innerType
          (inoutCanTake && false) false
      | v =>
        findDynamicValueAndType v (.structTy 0)
          (inoutCanTake && false) false
  | .metatypeTy _ | .existentialMetatypeTy _ =>
    { value := value, type := .metatypeTy value.asStoredMetadata,
      canTake := inoutCanTake, addrSame := addrSame }
  | _ =>
    -- Non-polymorphic types are their own dynamic value and type.
    { value := value, type := type,
      canTake := inoutCanTake, addrSame := addrSame }
termination_by (value.depth, type.depth)
decreasing_by
  · exact Prod.Lex.left _ _ (by simp [Value.depth])
  · exact Prod.Lex.right _ (by simp [TypeDesc.depth])
  · exact Prod.Lex.left _ _ (by simp [Value.depth])
  · exact Prod.Lex.right _ (by simp [TypeDesc.depth])

/-- `_maybeDeallocateOpaqueExistential`: whether, a cast operation
being complete, the opaque existential container's buffer is
deallocated. -/
def _maybeDeallocateOpaqueExistential (castSucceeded : Bool)
    (flags : DynamicCastFlags) : Bool :=
  shouldDeallocateSource castSucceeded flags

/-! ## Class instance casts -/

/-- `swift_dynamicCastClassUnconditional`. -/
def swift_dynamicCastClassUnconditional (object : Value)
    (targetType : List Nat) : Except (TypeDesc × TypeDesc) Value :=
  match swift_dynamicCastClass object targetType with
  | some v => .ok v
  | none => .error (objClassForDiag object, .classTy targetType)

/-- `_dynamicCastUnknownClassToExistential`: an Objective-C-existential
cast of a plain reference.  A witness-table-requiring (Swift-dispatch)
protocol defeats the single-refcounted-pointer representation;
Objective-C protocol conformance delegates to the (unavailable) foreign
collaborator except for `AnyObject`, which all classes satisfy. -/
def _dynamicCastUnknownClassToExistential (object : Value)
    (protocols : List ProtocolDesc) : Option Value :=
  match protocols with
  | [] => some object
  | p :: rest =>
    match p.strategy with
    | .swiftStrategy => none
    | .objcStrategy =>
      if p.isAnyObject then _dynamicCastUnknownClassToExistential object rest
      else none
    | .emptyStrategy => _dynamicCastUnknownClassToExistential object rest

/-- `swift_dynamicCastUnknownClass`: dynamic cast of some sort of class
instance to some sort of class (or class-representable existential)
type. -/
def swift_dynamicCastUnknownClass (object : Value) (targetType : TypeDesc) :
    Option Value :=
  match targetType with
  | .classTy chain => swift_dynamicCastClass object chain
  | .objcWrapper chain => swift_dynamicCastObjCClass object chain
  | .foreignClassTy chain => swift_dynamicCastForeignClass object chain
  | .existentialTy _ _ protocols =>
    _dynamicCastUnknownClassToExistential object protocols
  | _ => none

/-- `swift_dynamicCastUnknownClassUnconditional`. -/
def swift_dynamicCastUnknownClassUnconditional (object : Value)
    (targetType : TypeDesc) : Except (TypeDesc × TypeDesc) Value :=
  match swift_dynamicCastUnknownClass object targetType with
  | some v => .ok v
  | none => .error (objClassForDiag object, targetType)

/-- `_dynamicCastUnknownClassIndirect`: cast an object held in an
indirect buffer.  On success the (same) reference is stored to the
destination and retained unless `TakeOnSuccess`; on conditional
failure the object is released when `DestroyOnFailure`. -/
def _dynamicCastUnknownClassIndirect (object : Value)
    (targetType : TypeDesc) (flags : DynamicCastFlags) : CastM :=
  if flags.unconditional then
    match swift_dynamicCastUnknownClassUnconditional object targetType with
    | .error e => .error e
    | .ok result =>
      .ok { success := true, destVal := some result, destTouched := true,
            srcConsumed := flags.takeOnSuccess }
  else
    match swift_dynamicCastUnknownClass object targetType with
    | none =>
      .ok { success := false, destVal := none, destTouched := false,
            srcConsumed := flags.destroyOnFailure }
    | some result =>
      .ok { success := true, destVal := some result, destTouched := true,
            srcConsumed := flags.takeOnSuccess }

/-! ## Metatype casts -/

/-- `swift_dynamicCastMetatype`: the check is whether the source
metatype is an *instance of* the target instance type.  Class targets
(wrappers unwrap to their class object first) accept any class source
whose ancestry walk reaches them; every other target kind requires the
two (uniqued) descriptors to be equal. -/
def swift_dynamicCastMetatype (sourceType targetType : TypeDesc) :
    Option TypeDesc :=
  let origSourceType := sourceType
  match targetType with
  | .objcWrapper tchain | .classTy tchain =>
    -- The source value must also be a class; otherwise the cast fails.
    match sourceType with
    | .objcWrapper schain | .classTy schain =>
      -- Interop: swift_dynamicCastObjCClassMetatype (the ancestry walk).
      if (swift_dynamicCastObjCClassMetatype schain tchain).isSome
      then some origSourceType else none
    | .foreignClassTy schain =>
      if (swift_dynamicCastForeignClassMetatype schain tchain).isSome
      then some origSourceType else none
    | _ => none
  | .foreignClassTy tchain =>
    match sourceType with
    | .objcWrapper schain | .classTy schain | .foreignClassTy schain =>
      if (swift_dynamicCastForeignClassMetatype schain tchain).isSome
      then some origSourceType else none
    | _ => none
  | _ =>
    -- The cast succeeds only if the metadata pointers are statically
    -- equivalent.
    if sourceType = targetType then some origSourceType else none

/-- `swift_dynamicCastMetatypeUnconditional`: as above but failure
aborts with a diagnostic naming both (unwrapped) types. -/
def swift_dynamicCastMetatypeUnconditional (sourceType targetType : TypeDesc) :
    Except (TypeDesc × TypeDesc) TypeDesc :=
  let origSourceType := sourceType
  match targetType with
  | .objcWrapper tchain | .classTy tchain =>
    match sourceType with
    | .objcWrapper schain | .classTy schain =>
      if (swift_dynamicCastObjCClassMetatype schain tchain).isSome
      then .ok origSourceType
      else .error (.classTy schain, .classTy tchain)
    | .foreignClassTy schain =>
      if (swift_dynamicCastForeignClassMetatype schain tchain).isSome
      then .ok origSourceType
      else .error (.foreignClassTy schain, .classTy tchain)
    | _ => .error (sourceType, .classTy tchain)
  | .foreignClassTy tchain =>
    match sourceType with
    | .objcWrapper schain | .classTy schain =>
      if (swift_dynamicCastForeignClassMetatype schain tchain).isSome
      then .ok origSourceType
      else .error (.classTy schain, .foreignClassTy tchain)
    | .foreignClassTy schain =>
      if (swift_dynamicCastForeignClassMetatype schain tchain).isSome
      then .ok origSourceType
      else .error (.foreignClassTy schain, .foreignClassTy tchain)
    | _ => .error (sourceType, .foreignClassTy tchain)
  | _ =>
    if sourceType = targetType then .ok origSourceType
    else .error (sourceType, targetType)

/-- `_dynamicCastMetatypeToMetatype`: dispatch to the
conditional/unconditional metatype check and store the result metadata
word into the destination.  The check is instance-of, not subtype-of.
Metatype values are trivial, so neither success nor conditional failure
performs a take or destroy of the source. -/
def _dynamicCastMetatypeToMetatype (metatype targetInstanceTy : TypeDesc)
    (flags : DynamicCastFlags) : CastM :=
  if flags.unconditional then
    match swift_dynamicCastMetatypeUnconditional metatype targetInstanceTy with
    | .error e => .error e
    | .ok result =>
      .ok { success := true, destVal := some (.metatypeVal result),
            destTouched := true, srcConsumed := false }
  else
    match swift_dynamicCastMetatype metatype targetInstanceTy with
    | none =>
      .ok { success := false, destVal := none, destTouched := false,
            srcConsumed := false }
    | some result =>
      .ok { success := true, destVal := some (.metatypeVal result),
            destTouched := true, srcConsumed := false }

/-- `_getUnknownClassAsMetatype`: test whether an object's isa is a
metaclass, i.e. whether the object is itself a class object.  Plain
instances are never metatypes in the native runtime. -/
def _getUnknownClassAsMetatype : Value → Option TypeDesc
  | .classObject m => some m
  | _ => none

/-- `_dynamicCastUnknownClassToMetatype`. -/
def _dynamicCastUnknownClassToMetatype (object : Value)
    (targetInstanceTy : TypeDesc) (flags : DynamicCastFlags) : CastM :=
  match _getUnknownClassAsMetatype object with
  | some metatype => _dynamicCastMetatypeToMetatype metatype targetInstanceTy flags
  | none =>
    if flags.unconditional then
      .error (objClassForDiag object, .metatypeTy targetInstanceTy)
    else
      -- swift_unknownRelease(object) when DestroyOnFailure.
      .ok { success := false, destVal := none, destTouched := false,
            srcConsumed := flags.destroyOnFailure }

/-- `_dynamicCastToMetatype`: dispatch on the source kind, unwrapping
existential sources (an error-box source cannot be taken from, so the
nested cast runs with `TakeOnSuccess`/`DestroyOnFailure` stripped and
the box is destroyed here per `shouldDeallocateSource`). -/
def _dynamicCastToMetatype (src : Value) (srcType : TypeDesc)
    (targetInstanceTy : TypeDesc) (flags : DynamicCastFlags) : CastM :=
  let targetType := TypeDesc.metatypeTy targetInstanceTy
  match srcType with
  | .metatypeTy _ =>
    _dynamicCastMetatypeToMetatype src.asStoredMetadata targetInstanceTy flags
  | .existentialMetatypeTy _ =>
    _dynamicCastMetatypeToMetatype src.asStoredMetadata targetInstanceTy flags
  | .existentialTy r _ _ =>
    match r with
    | .classRepr =>
      _dynamicCastUnknownClassToMetatype src.existClassInner targetInstanceTy flags
    | .opaqueRepr =>
      match src with
      | .existOpaque srcValueType outOfLine srcValue =>
        match _dynamicCastToMetatype srcValue srcValueType targetInstanceTy flags with
        | .error e => .error e
        | .ok r =>
          -- `if (src != srcValue) _maybeDeallocateOpaqueExistential(...)`:
          -- the projected payload address differs exactly when the
          -- buffer is out of line.
          .ok { r with srcConsumed :=
                  r.srcConsumed ||
                    (outOfLine && _maybeDeallocateOpaqueExistential r.success flags) }
      | v => _dynamicCastToMetatype v (.structTy 0) targetInstanceTy flags
    | .errorRepr =>
      match src with
      | .errorBox srcValueType srcValue =>
        -- Can't take from a box since the value may be shared.
        let subFlags : DynamicCastFlags :=
          { flags with takeOnSuccess := false, destroyOnFailure := false }
        match _dynamicCastToMetatype srcValue srcValueType targetInstanceTy subFlags with
        | .error e => .error e
        | .ok r =>
          .ok { r with srcConsumed := shouldDeallocateSource r.success flags }
      | v => _dynamicCastToMetatype v (.structTy 0) targetInstanceTy flags
  | .classTy _ | .objcWrapper _ | .foreignClassTy _ =>
    _dynamicCastUnknownClassToMetatype src targetInstanceTy flags
  | _ =>
    _fail src srcType targetType flags
termination_by (src.depth, srcType.depth)
decreasing_by
  · exact Prod.Lex.left _ _ (by simp [Value.depth])
  · exact Prod.Lex.right _ (by simp [TypeDesc.depth])
  · exact Prod.Lex.left _ _ (by simp [Value.depth])
  · exact Prod.Lex.right _ (by simp [TypeDesc.depth])

/-! ## Existential target construction -/

/-- `swift_dynamicCastMetatypeToObjectConditional` (interop): a Swift
class metatype is an object in and of itself; an ObjC class wrapper
unwraps to its class object.  Other kinds of metadata don't cast to
`AnyObject`. -/
def swift_dynamicCastMetatypeToObjectConditional : TypeDesc → Option Value
  | .classTy chain => some (.classObject (.classTy chain))
  | .objcWrapper chain => some (.classObject (.classTy chain))
  | _ => none

/-- `_dynamicCastToExistential`: find the dynamic value and type of
the source, then construct the target existential per its
representation, checking the protocol list and writing witness tables
into the destination (class and opaque representations write them
in-place, so a failure after a partial collection leaves those words
written).

`maybeDeallocateSourceAfterSuccess` releases the source exactly when
`shouldDeallocateSource(true, flags)`: either leftover container husks
are deallocated (the dynamic payload itself was taken), or the whole
source is destroyed because the payload was not takable; when the
payload was taken directly from the source buffer the
take-initialization itself was the release. -/
def _dynamicCastToExistential (O : Oracle) (src : Value)
    (srcType : TypeDesc) (tRepr : ExistRepr) (tClassBounded : Bool)
    (tProtos : List ProtocolDesc) (flags : DynamicCastFlags) : CastM :=
  let targetType := TypeDesc.existentialTy tRepr tClassBounded tProtos
  let d := findDynamicValueAndType src srcType true true
  let maybeDeallocateSourceAfterSuccess := shouldDeallocateSource true flags
  match tRepr with
  | .classRepr =>
    -- If the source type is a value type, it cannot possibly conform
    -- to a class-bounded protocol.
    let proceed : Option (Value × TypeDesc × Bool) :=
      match d.type with
      | .existentialMetatypeTy _ | .metatypeTy _ =>
        -- Class metadata can be used as an object with ObjC interop.
        -- `tmp` is a function-local temporary, so the dynamic value's
        -- address no longer equals the source buffer's.
        match swift_dynamicCastMetatypeToObjectConditional
            src.asStoredMetadata with
        | some tmp => some (tmp, tmp.asStoredMetadata, false)
        | none => none
      | .classTy _ | .objcWrapper _ | .foreignClassTy _
      | .existentialTy _ _ _ =>
        some (d.value, d.type, d.addrSame)
      | .structTy _ | .enumTy _ | .optionalTy _ =>
        -- The bridging collaborator (`findBridgeWitness`) is
        -- unavailable, so fall through to the conformance check.
        some (d.value, d.type, d.addrSame)
      | _ => none
    match proceed with
    | none => _fail src srcType targetType flags
    | some (dynValue, dynType, _) =>
      -- Check for protocol conformances, filling in the witness
      -- tables of the destination container as we go.
      match _conformsToProtocols O (some dynValue) dynType tProtos true with
      | (false, ws) =>
        withDestWrites (!ws.isEmpty)
          (_fail src srcType targetType flags (some dynType))
      | (true, _) =>
        -- Store the reference, retaining it unless we can take the
        -- dynamic value and TakeOnSuccess is set.
        .ok { success := true, destVal := some (.existClass dynValue),
              destTouched := true,
              srcConsumed := maybeDeallocateSourceAfterSuccess }
  | .opaqueRepr =>
    match _conformsToProtocols O (some d.value) d.type tProtos true with
    | (false, ws) =>
      withDestWrites (!ws.isEmpty)
        (_fail src srcType targetType flags (some d.type))
    | (true, _) =>
      -- Fill in the type and value (initializeBufferWithTake when the
      -- value can be taken and TakeOnSuccess is set, else with copy).
      .ok { success := true,
            destVal := some (.existOpaque d.type false d.value),
            destTouched := true,
            srcConsumed := maybeDeallocateSourceAfterSuccess }
  | .errorRepr =>
    -- The single ErrorProtocol conformance is collected into a local,
    -- not into the destination buffer.
    match _conformsToProtocols O (some d.value) d.type tProtos true with
    | (false, _) =>
      _fail src srcType targetType flags (some d.type)
    | (true, _) =>
      -- swift_allocError boxes the dynamic value (taking it when
      -- canTake and TakeOnSuccess).
      .ok { success := true, destVal := some (.errorBox d.type d.value),
            destTouched := true,
            srcConsumed := maybeDeallocateSourceAfterSuccess }

/-- `_dynamicCastMetatypeToExistentialMetatype`: when the target's
instance type is an existential, check the source metatype's
conformance to every required protocol (witness tables go straight
into the destination when `writeDestMetatype`); when it is a deeper
existential metatype, require a concrete metatype source, proactively
store the metatype word into the destination (harmless even on
failure) and recurse one level down, reusing the same protocol list
since the representation is depth-invariant. -/
def _dynamicCastMetatypeToExistentialMetatype (O : Oracle)
    (srcMetatype targetInstanceTy : TypeDesc) (flags : DynamicCastFlags)
    (writeDestMetatype : Bool) : CastM :=
  let targetType := TypeDesc.existentialMetatypeTy targetInstanceTy
  match targetInstanceTy with
  | .existentialTy _ _ protocols =>
    match _conformsToProtocols O none srcMetatype protocols writeDestMetatype with
    | (false, ws) =>
      if flags.unconditional then .error (srcMetatype, targetType)
      else
        .ok { success := false, destVal := none,
              destTouched := !ws.isEmpty, srcConsumed := false }
    | (true, ws) =>
      .ok { success := true,
            destVal := if writeDestMetatype
                       then some (.metatypeVal srcMetatype) else none,
            destTouched := writeDestMetatype || !ws.isEmpty,
            srcConsumed := false }
  | .existentialMetatypeTy innerInstanceTy =>
    -- Casting to SomeProtocol.Type.Type...: the source must itself be
    -- a concrete metatype.
    match srcMetatype with
    | .metatypeTy srcInstanceTy =>
      -- Proactively set the destination metatype word so we can
      -- tail-recur; there's no harm in doing this even on failure.
      match _dynamicCastMetatypeToExistentialMetatype O srcInstanceTy
          innerInstanceTy flags false with
      | .error e => .error e
      | .ok r =>
        .ok { r with
              destVal := if r.success && writeDestMetatype
                         then some (.metatypeVal srcMetatype) else r.destVal,
              destTouched := writeDestMetatype || r.destTouched }
    | _ =>
      if flags.unconditional then .error (srcMetatype, targetType)
      else
        .ok { success := false, destVal := none, destTouched := false,
              srcConsumed := false }
  | _ =>
    -- The instance type of an existential metatype is always an
    -- existential or an existential metatype; anything else is
    -- malformed metadata and cannot match a concrete source.
    if flags.unconditional then .error (srcMetatype, targetType)
    else
      .ok { success := false, destVal := none, destTouched := false,
            srcConsumed := false }

/-- `_dynamicCastUnknownClassToExistentialMetatype`: class values are
never metatypes in the native runtime unless they are class objects. -/
def _dynamicCastUnknownClassToExistentialMetatype (O : Oracle)
    (object : Value) (targetInstanceTy : TypeDesc)
    (flags : DynamicCastFlags) : CastM :=
  match _getUnknownClassAsMetatype object with
  | some metatype =>
    _dynamicCastMetatypeToExistentialMetatype O metatype targetInstanceTy
      flags true
  | none =>
    if flags.unconditional then
      .error (objClassForDiag object, .existentialMetatypeTy targetInstanceTy)
    else
      .ok { success := false, destVal := none, destTouched := false,
            srcConsumed := flags.destroyOnFailure }

/-- `_dynamicCastToExistentialMetatype`: dispatch on the source kind,
unwrapping existential sources as in `_dynamicCastToMetatype`. -/
def _dynamicCastToExistentialMetatype (O : Oracle) (src : Value)
    (srcType : TypeDesc) (targetInstanceTy : TypeDesc)
    (flags : DynamicCastFlags) : CastM :=
  let targetType := TypeDesc.existentialMetatypeTy targetInstanceTy
  match srcType with
  | .metatypeTy _ =>
    _dynamicCastMetatypeToExistentialMetatype O src.asStoredMetadata
      targetInstanceTy flags true
  | .existentialMetatypeTy _ =>
    _dynamicCastMetatypeToExistentialMetatype O src.asStoredMetadata
      targetInstanceTy flags true
  | .existentialTy r _ _ =>
    match r with
    | .classRepr =>
      _dynamicCastUnknownClassToExistentialMetatype O src.existClassInner
        targetInstanceTy flags
    | .opaqueRepr =>
      match src with
      | .existOpaque srcValueType outOfLine srcValue =>
        match _dynamicCastToExistentialMetatype O srcValue srcValueType
            targetInstanceTy flags with
        | .error e => .error e
        | .ok r =>
          .ok { r with srcConsumed :=
                  r.srcConsumed ||
                    (outOfLine && _maybeDeallocateOpaqueExistential r.success flags) }
      | v => _dynamicCastToExistentialMetatype O v (.structTy 0)
          targetInstanceTy flags
    | .errorRepr =>
      match src with
      | .errorBox srcValueType srcValue =>
        -- Can't take from a box since the value may be shared.
        let subFlags : DynamicCastFlags :=
          { flags with takeOnSuccess := false, destroyOnFailure := false }
        match _dynamicCastToExistentialMetatype O srcValue srcValueType
            targetInstanceTy subFlags with
        | .error e => .error e
        | .ok r =>
          .ok { r with srcConsumed := shouldDeallocateSource r.success flags }
      | v => _dynamicCastToExistentialMetatype O v (.structTy 0)
          targetInstanceTy flags
  | .classTy _ | .objcWrapper _ | .foreignClassTy _ =>
    _dynamicCastUnknownClassToExistentialMetatype O src targetInstanceTy flags
  | _ =>
    _fail src srcType targetType flags
termination_by (src.depth, srcType.depth)
decreasing_by
  · exact Prod.Lex.left _ _ (by simp [Value.depth])
  · exact Prod.Lex.right _ (by simp [TypeDesc.depth])
  · exact Prod.Lex.left _ _ (by simp [Value.depth])
  · exact Prod.Lex.right _ (by simp [TypeDesc.depth])

/-! ## Function casts: the argument-spine helpers -/

/-- `FunctionTypeMetadata::getNumArguments` on the argument spine. -/
def TypeDesc.argCount : TypeDesc → Nat
  | .argCons _ _ rest => rest.argCount + 1
  | _ => 0

/-! ## Optional unwrapping of the cast source -/

/-- `swift_getEnumCaseSinglePayload` specialised to one empty case:
`-1` is the payload case, `0` the empty case.  A malformed
(non-Optional) value reads as the payload case. -/
def swift_getEnumCaseSinglePayload : Value → Int
  | .optNone => 0
  | _ => -1

/-- Result of `checkDynamicCastFromOptional`: either the cast is
already `done` (`{true,nullptr}` / `{false,nullptr}` in the source), or
dispatch should `cont`inue with the unwrapped payload value and type
(`{false, payloadType}`), carrying any destination writes and source
releases the preliminary whole-Optional existential attempt
performed. -/
inductive OptCheck where
  | done (r : CastRes)
  | cont (payloadType : TypeDesc) (unwrapped : Value)
      (preTouched : Bool) (preConsumed : Bool)

/-- Read the payload out of a single-payload Optional: layout
guarantees the payload sits at the source address, so no data moves.  A
malformed value is reinterpreted as the payload itself. -/
def Value.optionalUnwrap : Value → Value
  | .optSome w => w
  | v => v

/-- The case-tag stage of `checkDynamicCastFromOptional`, entered once
the preliminary whole-Optional existential attempt has failed or does
not apply (its destination writes `preT` and source releases `preC`
carry over): the empty case propagates only to an Optional target
(injecting the `.none` tag into the destination, then `_succeed`), any
other target fails; the payload case continues dispatch with the
unwrapped payload in place of the source. -/
def checkDynamicCastFromOptionalTag (src : Value)
    (payloadType targetType : TypeDesc) (flags : DynamicCastFlags)
    (preT preC : Bool) : Except (TypeDesc × TypeDesc) OptCheck :=
  if swift_getEnumCaseSinglePayload src != -1 then
    -- Allow Optional<T>.none -> Optional<U>.none
    match targetType with
    | .optionalTy _ =>
      -- Inject the .none tag into dest, then _succeed.
      match _succeed src (.optionalTy payloadType) flags with
      | .error e => .error e
      | .ok r =>
        .ok (.done { r with destTouched := r.destTouched || preT,
                            srcConsumed := r.srcConsumed || preC })
    | _ =>
      match _fail src (.optionalTy payloadType) targetType flags with
      | .error e => .error e
      | .ok r =>
        .ok (.done { r with destTouched := r.destTouched || preT,
                            srcConsumed := r.srcConsumed || preC })
  else
    -- .Some: single payload enums are layout compatible with their
    -- payload; only the payload needs taking or destroying.
    .ok (.cont payloadType src.optionalUnwrap preT preC)

/-- `checkDynamicCastFromOptional`: for an Optional source, first try
the target as an existential that Optional itself can satisfy (with
`Unconditional` and `DestroyOnFailure` stripped so a miss neither
aborts nor destroys the source); only if that attempt fails does the
case-tag stage run. -/
def checkDynamicCastFromOptional (O : Oracle) (src : Value)
    (srcType targetType : TypeDesc) (flags : DynamicCastFlags) :
    Except (TypeDesc × TypeDesc) OptCheck :=
  match srcType with
  | .optionalTy payloadType =>
    match targetType with
    | .existentialTy r cb ps =>
      -- Attempt a conditional cast without destroying on failure:
      -- checkCastFlags = flags - (Unconditional | DestroyOnFailure).
      match _dynamicCastToExistential O src (.optionalTy payloadType) r cb ps
          { flags with unconditional := false, destroyOnFailure := false } with
      | .error e => .error e
      | .ok r0 =>
        if r0.success then .ok (.done r0)
        else checkDynamicCastFromOptionalTag src payloadType targetType flags
          r0.destTouched r0.srcConsumed
    | _ => checkDynamicCastFromOptionalTag src payloadType targetType flags
        false false
  | _ => .ok (.cont srcType src false false)

/-- The tag stage only continues with the Optional's payload. -/
theorem checkDynamicCastFromOptionalTag_cont (src : Value)
    (payloadType targetType : TypeDesc) (flags : DynamicCastFlags)
    (preT preC : Bool) (pt : TypeDesc) (v : Value) (a b : Bool)
    (h : checkDynamicCastFromOptionalTag src payloadType targetType flags
      preT preC = .ok (.cont pt v a b)) :
    pt = payloadType ∧ v = src.optionalUnwrap := by
  unfold checkDynamicCastFromOptionalTag at h
  split at h
  · split at h <;> simp only [_succeed, _fail] at h <;>
      (try split at h) <;> simp_all
  · simp_all

/-- Weight of a source type for the dispatch termination measure: the
number of Optional layers, with existentials weighted so that
projecting out of one (even a malformed one) decreases. -/
def TypeDesc.unwrapWeight : TypeDesc → Nat
  | .optionalTy p => p.unwrapWeight + 1
  | .existentialTy _ _ _ => 2
  | _ => 1

/-- `checkDynamicCastFromOptional` never grows the source value or the
source type: the continuation's value is the source or its Optional
payload, and its type is the source type or its Optional payload
type. -/
theorem checkDynamicCastFromOptional_cont_depth (O : Oracle) (src : Value)
    (srcType targetType : TypeDesc) (flags : DynamicCastFlags)
    (pt : TypeDesc) (v : Value) (a b : Bool)
    (h : checkDynamicCastFromOptional O src srcType targetType flags =
      .ok (.cont pt v a b)) :
    v.depth ≤ src.depth ∧ pt.unwrapWeight ≤ srcType.unwrapWeight := by
  have unwrapLe : src.optionalUnwrap.depth ≤ src.depth := by
    cases src <;> simp [Value.optionalUnwrap, Value.depth]
  unfold checkDynamicCastFromOptional at h
  split at h
  case _ payloadType =>
    have payloadLe : payloadType.unwrapWeight ≤
        (TypeDesc.optionalTy payloadType).unwrapWeight := by
      simp [TypeDesc.unwrapWeight]
    split at h
    · split at h
      · exact absurd h (by simp)
      · split at h
        · exact absurd h (by simp)
        · obtain ⟨rfl, rfl⟩ :=
            checkDynamicCastFromOptionalTag_cont _ _ _ _ _ _ _ _ _ _ h
          exact ⟨unwrapLe, payloadLe⟩
    · obtain ⟨rfl, rfl⟩ :=
        checkDynamicCastFromOptionalTag_cont _ _ _ _ _ _ _ _ _ _ h
      exact ⟨unwrapLe, payloadLe⟩
  case _ =>
    cases h
    exact ⟨Nat.le_refl _, Nat.le_refl _⟩

/-- Lexicographic helpers for the four-component dispatch measure. -/
theorem lex4_1 {a a' b b' c c' d d' : Nat} (h1 : a' < a) :
    Prod.Lex (· < ·) (Prod.Lex (· < ·) (Prod.Lex (· < ·) (· < ·)))
      (a', b', c', d') (a, b, c, d) :=
  Prod.Lex.left _ _ h1

theorem lex4_2 {a a' b b' c c' d d' : Nat} (h1 : a' ≤ a) (h2 : b' < b) :
    Prod.Lex (· < ·) (Prod.Lex (· < ·) (Prod.Lex (· < ·) (· < ·)))
      (a', b', c', d') (a, b, c, d) := by
  rcases Nat.lt_or_ge a' a with h | h
  · exact Prod.Lex.left _ _ h
  · have ha : a' = a := Nat.le_antisymm h1 h
    subst ha
    exact Prod.Lex.right _ (Prod.Lex.left _ _ h2)

theorem lex4_3 {a a' b b' c c' d d' : Nat} (h1 : a' ≤ a) (h2 : b' ≤ b)
    (h3 : c' < c) :
    Prod.Lex (· < ·) (Prod.Lex (· < ·) (Prod.Lex (· < ·) (· < ·)))
      (a', b', c', d') (a, b, c, d) := by
  rcases Nat.lt_or_ge a' a with h | h
  · exact Prod.Lex.left _ _ h
  · have ha : a' = a := Nat.le_antisymm h1 h
    subst ha
    rcases Nat.lt_or_ge b' b with h' | h'
    · exact Prod.Lex.right _ (Prod.Lex.left _ _ h')
    · have hb : b' = b := Nat.le_antisymm h2 h'
      subst hb
      exact Prod.Lex.right _ (Prod.Lex.right _ (Prod.Lex.left _ _ h3))

theorem lex4_4 {a a' b b' c c' d d' : Nat} (h1 : a' ≤ a) (h2 : b' ≤ b)
    (h3 : c' ≤ c) (h4 : d' < d) :
    Prod.Lex (· < ·) (Prod.Lex (· < ·) (Prod.Lex (· < ·) (· < ·)))
      (a', b', c', d') (a, b, c, d) := by
  rcases Nat.lt_or_ge a' a with h | h
  · exact Prod.Lex.left _ _ h
  · have ha : a' = a := Nat.le_antisymm h1 h
    subst ha
    rcases Nat.lt_or_ge b' b with h' | h'
    · exact Prod.Lex.right _ (Prod.Lex.left _ _ h')
    · have hb : b' = b := Nat.le_antisymm h2 h'
      subst hb
      rcases Nat.lt_or_ge c' c with h'' | h''
      · exact Prod.Lex.right _ (Prod.Lex.right _ (Prod.Lex.left _ _ h''))
      · have hc : c' = c := Nat.le_antisymm h3 h''
        subst hc
        exact Prod.Lex.right _ (Prod.Lex.right _ (Prod.Lex.right _ h4))

theorem lex4_auto {a a' b b' c c' d d' : Nat} (h1 : a' ≤ a) (h3 : c' ≤ c)
    (h : b' < b ∨ (b' = b ∧ d' < d)) :
    Prod.Lex (· < ·) (Prod.Lex (· < ·) (Prod.Lex (· < ·) (· < ·)))
      (a', b', c', d') (a, b, c, d) := by
  rcases h with h | ⟨rfl, h⟩
  · exact lex4_2 h1 h
  · exact lex4_4 h1 (Nat.le_refl _) h3 h

/-- The class-existential projection either strictly shrinks the value
or leaves it unchanged while the reported dynamic type has no further
unwrapping to do. -/
theorem existClassInner_measure (v : Value) :
    v.existClassInner.depth < v.depth ∨
      (v.existClassInner = v ∧
        (swift_getObjectType v.existClassInner).unwrapWeight = 1) := by
  cases v <;>
    simp [Value.existClassInner, Value.depth, swift_getObjectType,
      TypeDesc.unwrapWeight]

/-- Fold the destination writes and source releases of the preliminary
whole-Optional existential attempt into the final result. -/
def addPreAttempt (preT preC : Bool) : CastM → CastM
  | .error e => .error e
  | .ok r => .ok { r with destTouched := r.destTouched || preT,
                          srcConsumed := r.srcConsumed || preC }

/-- Post-processing of a nested cast out of an error box: the box
itself is destroyed per `shouldDeallocateSource` (the nested cast ran
with `TakeOnSuccess`/`DestroyOnFailure` stripped and touched nothing). -/
def errorShieldRes (flags : DynamicCastFlags) : CastM → CastM
  | .error e => .error e
  | .ok r => .ok { r with srcConsumed := shouldDeallocateSource r.success flags }

/-- Post-processing of a nested cast out of an opaque existential when
casting to a class: `if (src != srcValue)
_maybeDeallocateOpaqueExistential(...)` — the projected payload differs
from the container exactly when the buffer is out of line. -/
def opaqueHuskToRes (flags : DynamicCastFlags) (outOfLine : Bool) :
    CastM → CastM
  | .error e => .error e
  | .ok r =>
    .ok { r with srcConsumed :=
            r.srcConsumed ||
              (outOfLine && _maybeDeallocateOpaqueExistential r.success flags) }

/-- Post-processing of a nested cast out of an opaque existential in
`_dynamicCastFromExistential`: deallocate the existential husk only if
the payload was taken from it — `canTake && result && isOutOfLine`. -/
def opaqueHuskFromRes (flags : DynamicCastFlags) (outOfLine : Bool) :
    CastM → CastM
  | .error e => .error e
  | .ok r =>
    .ok { r with srcConsumed :=
            r.srcConsumed ||
              (r.success && outOfLine &&
                _maybeDeallocateOpaqueExistential r.success flags) }

/-- Post-processing of a recursive cast into an Optional target's
payload area: on success, stamp the `.some` tag
(`storeEnumTagSinglePayload`). -/
def optStampRes : CastM → CastM
  | .error e => .error e
  | .ok r =>
    if r.success then
      .ok { r with destVal := Option.map Value.optSome r.destVal,
                   destTouched := true }
    else .ok r

/-! ## The cast dispatch engine -/

mutual

/-- `_dynamicCastToUnknownClassFromExistential`: cast from an
existential type to some kind of class type by unwrapping one
container level.  An NSError-target representation change would go
through the foreign collaborator, which is unavailable.  An error-box
source can never be taken from, so the nested cast runs with
`TakeOnSuccess`/`DestroyOnFailure` stripped and the box is destroyed
here per `shouldDeallocateSource`. -/
def _dynamicCastToUnknownClassFromExistential (O : Oracle) (src : Value)
    (srcType targetType : TypeDesc) (flags : DynamicCastFlags) : CastM :=
  match srcType with
  | .existentialTy r _ _ =>
    match r with
    | .classRepr =>
      _dynamicCastUnknownClassIndirect src.existClassInner targetType flags
    | .opaqueRepr =>
      match src with
      | .existOpaque srcCapturedType outOfLine srcValue =>
        opaqueHuskToRes flags outOfLine
          (swift_dynamicCast O srcValue srcCapturedType targetType flags)
      | v => swift_dynamicCast O v (.structTy 0) targetType flags
    | .errorRepr =>
      match src with
      | .errorBox srcCapturedType srcValue =>
        errorShieldRes flags
          (swift_dynamicCast O srcValue srcCapturedType targetType
            { flags with takeOnSuccess := false, destroyOnFailure := false })
      | v =>
        errorShieldRes flags
          (swift_dynamicCast O v (.structTy 0) targetType
            { flags with takeOnSuccess := false, destroyOnFailure := false })
  | _ => _fail src srcType targetType flags
termination_by (src.depth, targetType.depth, srcType.unwrapWeight, 0)
decreasing_by
  · exact lex4_1 (by simp [Value.depth])
  · exact lex4_3 (Nat.le_refl _) (Nat.le_refl _) (by simp [TypeDesc.unwrapWeight])
  · exact lex4_1 (by simp [Value.depth])
  · exact lex4_3 (Nat.le_refl _) (Nat.le_refl _) (by simp [TypeDesc.unwrapWeight])

/-- `_dynamicCastFromExistential`: cast from an existential type to a
non-existential type, unwrapping one container level.  A class
container's reference slot and an inline opaque buffer are in-place
(`isOutOfLine = false`); error boxes may be shared, so `canTake` is
false: the nested cast must neither take nor destroy the boxed value,
and the whole box is destroyed here per `shouldDeallocateSource`. -/
def _dynamicCastFromExistential (O : Oracle) (src : Value)
    (srcType targetType : TypeDesc) (flags : DynamicCastFlags) : CastM :=
  match srcType with
  | .existentialTy r _ _ =>
    match r with
    | .classRepr =>
      -- canTake = true, isOutOfLine = false: nothing to deallocate.
      swift_dynamicCast O src.existClassInner
        (swift_getObjectType src.existClassInner) targetType flags
    | .opaqueRepr =>
      match src with
      | .existOpaque srcCapturedType outOfLine srcValue =>
        opaqueHuskFromRes flags outOfLine
          (swift_dynamicCast O srcValue srcCapturedType targetType flags)
      | v => swift_dynamicCast O v (.structTy 0) targetType flags
    | .errorRepr =>
      match src with
      | .errorBox srcCapturedType srcValue =>
        errorShieldRes flags
          (swift_dynamicCast O srcValue srcCapturedType targetType
            { flags with takeOnSuccess := false, destroyOnFailure := false })
      | v =>
        errorShieldRes flags
          (swift_dynamicCast O v (.structTy 0) targetType
            { flags with takeOnSuccess := false, destroyOnFailure := false })
  | _ => _fail src srcType targetType flags
termination_by (src.depth, targetType.depth, srcType.unwrapWeight, 0)
decreasing_by
  · rcases existClassInner_measure src with h | ⟨h1, h2⟩
    · exact lex4_1 h
    · exact lex4_3 (le_of_eq (by rw [h1])) (Nat.le_refl _)
        (by rw [h2]; simp [TypeDesc.unwrapWeight])
  · exact lex4_1 (by simp [Value.depth])
  · exact lex4_3 (Nat.le_refl _) (Nat.le_refl _) (by simp [TypeDesc.unwrapWeight])
  · exact lex4_1 (by simp [Value.depth])
  · exact lex4_3 (Nat.le_refl _) (Nat.le_refl _) (by simp [TypeDesc.unwrapWeight])

/-- `_dynamicCastToFunction`: function casts succeed on exact matches,
or when argument count, per-argument type and by-reference flag,
result type and calling convention all agree and the target is at
least as throwing as the source. -/
def _dynamicCastToFunction (O : Oracle) (src : Value)
    (srcType targetType : TypeDesc) (flags : DynamicCastFlags) : CastM :=
  -- Check for an exact type match first.
  if srcType = targetType then _succeed src srcType flags
  else
    match srcType with
    | .functionTy sconv sthrows sargs sresult =>
      match targetType with
      | .functionTy tconv tthrows targs tresult =>
        -- Flags.withThrows(false) equality: argument count and
        -- calling convention must match; "throws" can vary.
        if sargs.argCount != targs.argCount || sconv != tconv then
          _fail src srcType targetType flags
        -- If the target type can't throw, neither can the source.
        else if sthrows && !tthrows then
          _fail src srcType targetType flags
        -- The result and argument types must match.
        else if sresult != tresult then
          _fail src srcType targetType flags
        else if sargs.argCount != targs.argCount then
          _fail src srcType targetType flags
        else if sargs != targs then
          _fail src srcType targetType flags
        else
          _succeed src srcType flags
      | _ => _fail src srcType targetType flags
    | .existentialTy er ecb eps =>
      _dynamicCastFromExistential O src (.existentialTy er ecb eps)
        targetType flags
    | _ => _fail src srcType targetType flags
termination_by (src.depth, targetType.depth, srcType.unwrapWeight, 1)
decreasing_by
  · exact lex4_4 (Nat.le_refl _) (Nat.le_refl _) (Nat.le_refl _) (by omega)

/-- `swift_dynamicCast`: the top-level dynamic cast entry point —
Optional source unwrapping, then dispatch on the target kind with a
nested dispatch on the source kind. -/
def swift_dynamicCast (O : Oracle) (src : Value)
    (srcType targetType : TypeDesc) (flags : DynamicCastFlags) : CastM :=
  match hunwrap : checkDynamicCastFromOptional O src srcType targetType flags with
  | .error e => .error e
  | .ok (.done r) => .ok r
  | .ok (.cont srcType' src' preT preC) =>
    addPreAttempt preT preC
      (match htgt : targetType with
      -- Handle wrapping an Optional target.
      | .optionalTy payloadType =>
        match srcType' with
        | .existentialTy er ecb eps =>
          -- An optional source wrapped within an existential that
          -- Optional conforms to (Any): cast without unwrapping the
          -- target.
          _dynamicCastFromExistential O src' (.existentialTy er ecb eps)
            targetType flags
        | sTy =>
          -- Recursively cast into the layout compatible payload area,
          -- then stamp the .some tag (storeEnumTagSinglePayload).
          optStampRes (swift_dynamicCast O src' sTy payloadType flags)
      -- Casts to class type.  NSError bridging targets and value-type
      -- bridging sources go through the unavailable foreign
      -- collaborator, so they fall to the generic rules.
      | .classTy _ | .objcWrapper _ | .foreignClassTy _ =>
        match srcType' with
        | .classTy _ | .objcWrapper _ | .foreignClassTy _ =>
          -- Do a dynamic cast on the instance pointer.
          _dynamicCastUnknownClassIndirect src' targetType flags
        | .existentialTy er ecb eps =>
          _dynamicCastToUnknownClassFromExistential O src'
            (.existentialTy er ecb eps) targetType flags
        | .enumTy _ | .optionalTy _ | .structTy _ =>
          -- findBridgeWitness: the bridging collaborator is
          -- unavailable.
          _fail src' srcType' targetType flags
        | _ => _fail src' srcType' targetType flags
      | .existentialTy r cb ps =>
        _dynamicCastToExistential O src' srcType' r cb ps flags
      | .metatypeTy targetInstanceTy =>
        _dynamicCastToMetatype src' srcType' targetInstanceTy flags
      | .existentialMetatypeTy targetInstanceTy =>
        _dynamicCastToExistentialMetatype O src' srcType'
          targetInstanceTy flags
      | .functionTy _ _ _ _ =>
        _dynamicCastToFunction O src' srcType' targetType flags
      | .structTy _ | .enumTy _ | .tupleTy _ | .opaqueTy _
      | .heapLocalTy _ | .heapGenericLocalTy _ | .errorObjectTy _
      | .argNil | .argCons _ _ _ =>
        -- Struct and Enum targets: a class source would bridge via
        -- the unavailable foreign collaborator, so everything falls
        -- through to the generic rule for non-polymorphic types:
        -- exact match succeeds; an existential source is unwrapped;
        -- otherwise fail.
        if srcType' = targetType then _succeed src' srcType' flags
        else
          match srcType' with
          | .existentialTy er ecb eps =>
            _dynamicCastFromExistential O src' (.existentialTy er ecb eps)
              targetType flags
          | _ => _fail src' srcType' targetType flags)
termination_by (src.depth, targetType.depth, srcType.unwrapWeight, 2)
decreasing_by
  all_goals
    obtain ⟨hv, ht⟩ := checkDynamicCastFromOptional_cont_depth O src srcType
      _ flags _ _ _ _ hunwrap
    try rw [htgt]
    refine lex4_auto hv ht ?_
    first
    | exact Or.inr ⟨rfl, by omega⟩
    | exact Or.inl (by simp only [TypeDesc.depth]; omega)

end

/-! ## The ownership invariant

`shouldDeallocateSource` governs exactly one ownership release per
call.  The invariant is stated for ownership-bearing sources:
metatype-kind sources (and class objects, which are type objects) hold
trivial values that own nothing — the runtime legitimately skips their
no-op releases (`_dynamicCastMetatypeToMetatype` stores the metadata
word without invoking any value witness). -/

/-- An ownership-bearing source: the dispatch never reaches a
metadata-word store path for it.  Excludes metatype-kind source types,
class objects (type objects posing as references), and containers
whose payload violates the same condition; error-box containers are
shielded because the engine strips take/destroy for their nested cast
and destroys the box itself per `shouldDeallocateSource`. -/
def ownershipSafe : Value → TypeDesc → Bool
  | _, .metatypeTy _ => false
  | _, .existentialMetatypeTy _ => false
  | v, .optionalTy p =>
    match v with
    | .optNone => true
    | .optSome w => ownershipSafe w p
    | w => ownershipSafe w p
  | v, .existentialTy r _ _ =>
    match r with
    | .classRepr => !v.existClassInner.isClassObject
    | .opaqueRepr =>
      match v with
      | .existOpaque d _ p => ownershipSafe p d
      | w => ownershipSafe w (.structTy 0)
    | .errorRepr =>
      -- A real error box is shielded: the nested cast runs with
      -- take/destroy stripped and the box destroy follows the rule.
      match v with
      | .errorBox _ _ => true
      | w => ownershipSafe w (.structTy 0)
  | .classObject _, _ => false
  | _, _ => true
termination_by v t => (v.depth, t.depth)
decreasing_by
  · exact Prod.Lex.left _ _ (by simp [Value.depth])
  · exact Prod.Lex.right _ (by simp [TypeDesc.depth])
  · exact Prod.Lex.left _ _ (by simp [Value.depth])
  · exact Prod.Lex.right _ (by simp [TypeDesc.depth])
  · exact Prod.Lex.right _ (by simp [TypeDesc.depth])

/-- The three result-shape invariants of every cast operation: an
abort only happens in unconditional mode; in unconditional mode a
returning call succeeded; a conditional failure never leaves a
completed destination value; and (for ownership-bearing sources, when
`safe`) the source is released exactly when `shouldDeallocateSource`
says so. -/
def CastOK (flags : DynamicCastFlags) (safe : Bool) : CastM → Prop
  | .error _ => flags.unconditional = true
  | .ok r =>
    (flags.unconditional = true → r.success = true) ∧
    (r.success = false → r.destVal = none) ∧
    (safe = true → r.srcConsumed = shouldDeallocateSource r.success flags)

theorem CastOK.weaken {flags : DynamicCastFlags} {res : CastM}
    (h : CastOK flags true res) (safe : Bool) : CastOK flags safe res := by
  cases res with
  | error e => exact h
  | ok r =>
    obtain ⟨h1, h2, h3⟩ := h
    exact ⟨h1, h2, fun hs => h3 rfl⟩

theorem castOK_fail (v : Value) (srcType targetType : TypeDesc)
    (flags : DynamicCastFlags) (dyn : Option TypeDesc) :
    CastOK flags true (_fail v srcType targetType flags dyn) := by
  unfold _fail
  split
  case isTrue h => exact h
  case isFalse h =>
    refine ⟨fun hu => absurd hu h, fun _ => rfl, fun _ => ?_⟩
    simp [shouldDeallocateSource]

theorem castOK_succeed (v : Value) (srcType : TypeDesc)
    (flags : DynamicCastFlags) :
    CastOK flags true (_succeed v srcType flags) := by
  refine ⟨fun _ => rfl, fun h => by simp at h, fun _ => ?_⟩
  simp [_succeed, shouldDeallocateSource]

theorem castOK_withDestWrites {flags : DynamicCastFlags} {res : CastM}
    (touched : Bool) (h : CastOK flags safe res) :
    CastOK flags safe (withDestWrites touched res) := by
  cases res with
  | error e => exact h
  | ok r => exact h

theorem castOK_indirect (object : Value) (targetType : TypeDesc)
    (flags : DynamicCastFlags) :
    CastOK flags true (_dynamicCastUnknownClassIndirect object targetType flags) := by
  unfold _dynamicCastUnknownClassIndirect
  split
  case isTrue hu =>
    split
    · simpa [CastOK]
    · exact ⟨fun _ => rfl, fun h => by simp at h,
        fun _ => by simp [shouldDeallocateSource]⟩
  case isFalse hu =>
    split
    · refine ⟨fun h => absurd h hu, fun _ => rfl, fun _ => ?_⟩
      simp [shouldDeallocateSource]
    · exact ⟨fun _ => rfl, fun h => by simp at h,
        fun _ => by simp [shouldDeallocateSource]⟩

theorem castOK_toExistential (O : Oracle) (src : Value) (srcType : TypeDesc)
    (tRepr : ExistRepr) (tClassBounded : Bool) (tProtos : List ProtocolDesc)
    (flags : DynamicCastFlags) :
    CastOK flags true
      (_dynamicCastToExistential O src srcType tRepr tClassBounded tProtos flags) := by
  unfold _dynamicCastToExistential
  rcases tRepr with _ | _ | _
  · -- class representation
    dsimp only
    split
    · exact castOK_fail _ _ _ _ _
    · split
      · exact castOK_withDestWrites _ (castOK_fail _ _ _ _ _)
      · exact ⟨fun _ => rfl, fun h => by simp at h,
          fun _ => by simp [shouldDeallocateSource]⟩
  · -- opaque representation
    dsimp only
    split
    · exact castOK_withDestWrites _ (castOK_fail _ _ _ _ _)
    · exact ⟨fun _ => rfl, fun h => by simp at h,
        fun _ => by simp [shouldDeallocateSource]⟩
  · -- error representation
    dsimp only
    split
    · exact castOK_fail _ _ _ _ _
    · exact ⟨fun _ => rfl, fun h => by simp at h,
        fun _ => by simp [shouldDeallocateSource]⟩

theorem castOK_metatypeToMetatype (metatype targetInstanceTy : TypeDesc)
    (flags : DynamicCastFlags) :
    CastOK flags false
      (_dynamicCastMetatypeToMetatype metatype targetInstanceTy flags) := by
  unfold _dynamicCastMetatypeToMetatype
  split
  case isTrue hu =>
    split
    · exact hu
    · exact ⟨fun _ => rfl, fun h => by simp at h, fun h => by simp at h⟩
  case isFalse hu =>
    split
    · exact ⟨fun h => absurd h hu, fun _ => rfl, fun h => by simp at h⟩
    · exact ⟨fun _ => rfl, fun h => by simp at h, fun h => by simp at h⟩

theorem castOK_unknownClassToMetatype (object : Value)
    (targetInstanceTy : TypeDesc) (flags : DynamicCastFlags) :
    CastOK flags (!object.isClassObject)
      (_dynamicCastUnknownClassToMetatype object targetInstanceTy flags) := by
  unfold _dynamicCastUnknownClassToMetatype
  cases object <;>
    simp only [_getUnknownClassAsMetatype, Value.isClassObject]
  case classObject m =>
    exact castOK_metatypeToMetatype m targetInstanceTy flags
  all_goals
    split
    case isTrue hu => exact hu
    case isFalse hu =>
      exact ⟨fun h => absurd h hu, fun _ => rfl,
        fun _ => by simp [shouldDeallocateSource]⟩

theorem castOK_metatypeToExistentialMetatype (O : Oracle)
    (srcMetatype targetInstanceTy : TypeDesc) (flags : DynamicCastFlags)
    (writeDestMetatype : Bool) :
    CastOK flags false
      (_dynamicCastMetatypeToExistentialMetatype O srcMetatype
        targetInstanceTy flags writeDestMetatype) := by
  induction targetInstanceTy generalizing srcMetatype writeDestMetatype with
  | existentialTy r cb ps =>
    unfold _dynamicCastMetatypeToExistentialMetatype
    dsimp only
    split
    · split
      case isTrue hu => exact hu
      case isFalse hu =>
        exact ⟨fun h => absurd h hu, fun _ => rfl, fun h => by simp at h⟩
    · exact ⟨fun _ => rfl, fun h => by simp at h, fun h => by simp at h⟩
  | existentialMetatypeTy inner ih =>
    unfold _dynamicCastMetatypeToExistentialMetatype
    dsimp only
    cases srcMetatype <;>
      first
      | ( -- non-metatype sources fail
        dsimp only
        split
        case isTrue hu => exact hu
        case isFalse hu =>
          exact ⟨fun h => absurd h hu, fun _ => rfl, fun h => by simp at h⟩)
      | (case metatypeTy srcInstanceTy =>
          dsimp only
          rcases hrec : _dynamicCastMetatypeToExistentialMetatype O
              srcInstanceTy inner flags false with e | r
          · have := ih srcInstanceTy false
            rw [hrec] at this
            exact this
          · have := ih srcInstanceTy false
            rw [hrec] at this
            obtain ⟨h1, h2, _⟩ := this
            refine ⟨h1, fun hs => ?_, fun h => by simp at h⟩
            rw [hs]
            simpa using h2 hs)
  | _ =>
    unfold _dynamicCastMetatypeToExistentialMetatype
    first
    | (dsimp only
       split
       case isTrue hu => exact hu
       case isFalse hu =>
         exact ⟨fun h => absurd h hu, fun _ => rfl, fun h => by simp at h⟩)

theorem castOK_unknownClassToExistentialMetatype (O : Oracle) (object : Value)
    (targetInstanceTy : TypeDesc) (flags : DynamicCastFlags) :
    CastOK flags (!object.isClassObject)
      (_dynamicCastUnknownClassToExistentialMetatype O object
        targetInstanceTy flags) := by
  unfold _dynamicCastUnknownClassToExistentialMetatype
  cases object <;>
    simp only [_getUnknownClassAsMetatype, Value.isClassObject]
  case classObject m =>
    exact castOK_metatypeToExistentialMetatype O m targetInstanceTy flags true
  all_goals
    split
    case isTrue hu => exact hu
    case isFalse hu =>
      exact ⟨fun h => absurd h hu, fun _ => rfl,
        fun _ => by simp [shouldDeallocateSource]⟩

/-- Evaluation facts for `ownershipSafe`. -/
theorem ownershipSafe_metatypeTy (v : Value) (i : TypeDesc) :
    ownershipSafe v (.metatypeTy i) = false := by
  simp [ownershipSafe]

theorem ownershipSafe_existentialMetatypeTy (v : Value) (i : TypeDesc) :
    ownershipSafe v (.existentialMetatypeTy i) = false := by
  simp [ownershipSafe]

theorem ownershipSafe_classTy (v : Value) (c : List Nat) :
    ownershipSafe v (.classTy c) = !v.isClassObject := by
  cases v <;> simp [ownershipSafe, Value.isClassObject]

theorem ownershipSafe_objcWrapper (v : Value) (c : List Nat) :
    ownershipSafe v (.objcWrapper c) = !v.isClassObject := by
  cases v <;> simp [ownershipSafe, Value.isClassObject]

theorem ownershipSafe_foreignClassTy (v : Value) (c : List Nat) :
    ownershipSafe v (.foreignClassTy c) = !v.isClassObject := by
  cases v <;> simp [ownershipSafe, Value.isClassObject]

theorem ownershipSafe_existClass (v : Value) (cb : Bool)
    (ps : List ProtocolDesc) :
    ownershipSafe v (.existentialTy .classRepr cb ps) =
      !v.existClassInner.isClassObject := by
  cases v <;> simp [ownershipSafe]

theorem castOK_toMetatype (src : Value) (srcType targetInstanceTy : TypeDesc)
    (flags : DynamicCastFlags) :
    CastOK flags (ownershipSafe src srcType)
      (_dynamicCastToMetatype src srcType targetInstanceTy flags) := by
  induction src, srcType, targetInstanceTy, flags using _dynamicCastToMetatype.induct
  case case1 src targetInstanceTy flags i =>
    rw [ownershipSafe_metatypeTy]
    unfold _dynamicCastToMetatype
    exact castOK_metatypeToMetatype _ _ _
  case case2 src targetInstanceTy flags i =>
    rw [ownershipSafe_existentialMetatypeTy]
    unfold _dynamicCastToMetatype
    exact castOK_metatypeToMetatype _ _ _
  case case3 src targetInstanceTy flags cb ps =>
    rw [ownershipSafe_existClass]
    unfold _dynamicCastToMetatype
    exact castOK_unknownClassToMetatype _ _ _
  case case4 targetInstanceTy flags cb ps dynTy ool payload e heq ih =>
    rw [heq] at ih
    unfold _dynamicCastToMetatype
    dsimp only
    rw [heq]
    have hsafe : ownershipSafe (Value.existOpaque dynTy ool payload)
        (TypeDesc.existentialTy ExistRepr.opaqueRepr cb ps) =
        ownershipSafe payload dynTy := by
      simp [ownershipSafe]
    rw [hsafe]
    exact ih
  case case5 targetInstanceTy flags cb ps dynTy ool payload r heq ih =>
    rw [heq] at ih
    unfold _dynamicCastToMetatype
    dsimp only
    rw [heq]
    have hsafe : ownershipSafe (Value.existOpaque dynTy ool payload)
        (TypeDesc.existentialTy ExistRepr.opaqueRepr cb ps) =
        ownershipSafe payload dynTy := by
      simp [ownershipSafe]
    rw [hsafe]
    obtain ⟨h1, h2, h3⟩ := ih
    refine ⟨h1, h2, fun hs => ?_⟩
    rw [h3 hs]
    simp only [_maybeDeallocateOpaqueExistential, shouldDeallocateSource]
    cases r.success <;> cases flags.takeOnSuccess <;>
      cases flags.destroyOnFailure <;> cases ool <;> simp
  case case6 targetInstanceTy flags cb ps v hne ih =>
    have hsafe : ownershipSafe v
        (TypeDesc.existentialTy ExistRepr.opaqueRepr cb ps) =
        ownershipSafe v (TypeDesc.structTy 0) := by
      cases v <;> first
        | (exfalso; exact hne _ _ _ rfl)
        | simp [ownershipSafe]
    rw [hsafe]
    unfold _dynamicCastToMetatype
    dsimp only
    cases v <;> first
      | (exfalso; exact hne _ _ _ rfl)
      | exact ih
  case case7 targetInstanceTy flags cb ps dynTy payload subFlags e heq ih =>
    rw [heq] at ih
    unfold _dynamicCastToMetatype
    dsimp only
    rw [heq]
    exact ih
  case case8 targetInstanceTy flags cb ps dynTy payload subFlags r heq ih =>
    rw [heq] at ih
    unfold _dynamicCastToMetatype
    dsimp only
    rw [heq]
    have hsafe : ownershipSafe (Value.errorBox dynTy payload)
        (TypeDesc.existentialTy ExistRepr.errorRepr cb ps) = true := by
      simp [ownershipSafe]
    rw [hsafe]
    obtain ⟨h1, h2, h3⟩ := ih
    exact ⟨h1, h2, fun _ => rfl⟩
  case case9 targetInstanceTy flags cb ps v hne ih =>
    have hsafe : ownershipSafe v
        (TypeDesc.existentialTy ExistRepr.errorRepr cb ps) =
        ownershipSafe v (TypeDesc.structTy 0) := by
      cases v <;> first
        | (exfalso; exact hne _ _ rfl)
        | simp [ownershipSafe]
    rw [hsafe]
    unfold _dynamicCastToMetatype
    dsimp only
    cases v <;> first
      | (exfalso; exact hne _ _ rfl)
      | exact ih
  case case10 src targetInstanceTy flags chain =>
    rw [ownershipSafe_classTy]
    unfold _dynamicCastToMetatype
    exact castOK_unknownClassToMetatype _ _ _
  case case11 src targetInstanceTy flags chain =>
    rw [ownershipSafe_objcWrapper]
    unfold _dynamicCastToMetatype
    exact castOK_unknownClassToMetatype _ _ _
  case case12 src targetInstanceTy flags chain =>
    rw [ownershipSafe_foreignClassTy]
    unfold _dynamicCastToMetatype
    exact castOK_unknownClassToMetatype _ _ _
  case case13 src srcType targetInstanceTy flags h1 h2 h3 h4 h5 h6 =>
    unfold _dynamicCastToMetatype
    rcases srcType <;> first
      | (exfalso; exact h1 _ rfl)
      | (exfalso; exact h2 _ rfl)
      | (exfalso; exact h3 _ _ _ rfl)
      | (exfalso; exact h4 _ rfl)
      | (exfalso; exact h5 _ rfl)
      | (exfalso; exact h6 _ rfl)
      | exact (castOK_fail _ _ _ _ _).weaken _

theorem castOK_toExistentialMetatype (O : Oracle) (src : Value)
    (srcType targetInstanceTy : TypeDesc) (flags : DynamicCastFlags) :
    CastOK flags (ownershipSafe src srcType)
      (_dynamicCastToExistentialMetatype O src srcType targetInstanceTy flags) := by
  induction src, srcType, targetInstanceTy, flags using
    _dynamicCastToExistentialMetatype.induct
  case case1 src targetInstanceTy flags i =>
    rw [ownershipSafe_metatypeTy]
    unfold _dynamicCastToExistentialMetatype
    exact castOK_metatypeToExistentialMetatype _ _ _ _ _
  case case2 src targetInstanceTy flags i =>
    rw [ownershipSafe_existentialMetatypeTy]
    unfold _dynamicCastToExistentialMetatype
    exact castOK_metatypeToExistentialMetatype _ _ _ _ _
  case case3 src targetInstanceTy flags cb ps =>
    rw [ownershipSafe_existClass]
    unfold _dynamicCastToExistentialMetatype
    exact castOK_unknownClassToExistentialMetatype _ _ _ _
  case case4 targetInstanceTy flags cb ps dynTy ool payload e heq ih =>
    unfold _dynamicCastToExistentialMetatype
    dsimp only
    have hsafe : ownershipSafe (Value.existOpaque dynTy ool payload)
        (TypeDesc.existentialTy ExistRepr.opaqueRepr cb ps) =
        ownershipSafe payload dynTy := by
      simp [ownershipSafe]
    rw [hsafe]
    rcases hres : _dynamicCastToExistentialMetatype O payload dynTy
        targetInstanceTy flags with e2 | r2
    · rw [hres] at ih
      exact ih
    · rw [hres] at ih
      obtain ⟨h1, h2, h3⟩ := ih
      refine ⟨h1, h2, fun hs => ?_⟩
      rw [h3 hs]
      simp only [_maybeDeallocateOpaqueExistential, shouldDeallocateSource]
      cases r2.success <;> cases flags.takeOnSuccess <;>
        cases flags.destroyOnFailure <;> cases ool <;> simp
  case case5 targetInstanceTy flags cb ps dynTy ool payload r heq ih =>
    unfold _dynamicCastToExistentialMetatype
    dsimp only
    have hsafe : ownershipSafe (Value.existOpaque dynTy ool payload)
        (TypeDesc.existentialTy ExistRepr.opaqueRepr cb ps) =
        ownershipSafe payload dynTy := by
      simp [ownershipSafe]
    rw [hsafe]
    rcases hres : _dynamicCastToExistentialMetatype O payload dynTy
        targetInstanceTy flags with e2 | r2
    · rw [hres] at ih
      exact ih
    · rw [hres] at ih
      obtain ⟨h1, h2, h3⟩ := ih
      refine ⟨h1, h2, fun hs => ?_⟩
      rw [h3 hs]
      simp only [_maybeDeallocateOpaqueExistential, shouldDeallocateSource]
      cases r2.success <;> cases flags.takeOnSuccess <;>
        cases flags.destroyOnFailure <;> cases ool <;> simp
  case case6 targetInstanceTy flags cb ps v hne ih =>
    have hsafe : ownershipSafe v
        (TypeDesc.existentialTy ExistRepr.opaqueRepr cb ps) =
        ownershipSafe v (TypeDesc.structTy 0) := by
      cases v <;> first
        | (exfalso; exact hne _ _ _ rfl)
        | simp [ownershipSafe]
    rw [hsafe]
    unfold _dynamicCastToExistentialMetatype
    dsimp only
    cases v <;> first
      | (exfalso; exact hne _ _ _ rfl)
      | exact ih
  case case7 targetInstanceTy flags cb ps dynTy payload subFlags e heq ih =>
    unfold _dynamicCastToExistentialMetatype
    dsimp only
    have hsafe : ownershipSafe (Value.errorBox dynTy payload)
        (TypeDesc.existentialTy ExistRepr.errorRepr cb ps) = true := by
      simp [ownershipSafe]
    rw [hsafe]
    rcases hres : _dynamicCastToExistentialMetatype O payload dynTy
        targetInstanceTy
        { flags with takeOnSuccess := false, destroyOnFailure := false }
      with e2 | r2
    · rw [hres] at ih
      exact ih
    · rw [hres] at ih
      obtain ⟨h1, h2, h3⟩ := ih
      exact ⟨h1, h2, fun _ => rfl⟩
  case case8 targetInstanceTy flags cb ps dynTy payload subFlags r heq ih =>
    unfold _dynamicCastToExistentialMetatype
    dsimp only
    have hsafe : ownershipSafe (Value.errorBox dynTy payload)
        (TypeDesc.existentialTy ExistRepr.errorRepr cb ps) = true := by
      simp [ownershipSafe]
    rw [hsafe]
    rcases hres : _dynamicCastToExistentialMetatype O payload dynTy
        targetInstanceTy
        { flags with takeOnSuccess := false, destroyOnFailure := false }
      with e2 | r2
    · rw [hres] at ih
      exact ih
    · rw [hres] at ih
      obtain ⟨h1, h2, h3⟩ := ih
      exact ⟨h1, h2, fun _ => rfl⟩
  case case9 targetInstanceTy flags cb ps v hne ih =>
    have hsafe : ownershipSafe v
        (TypeDesc.existentialTy ExistRepr.errorRepr cb ps) =
        ownershipSafe v (TypeDesc.structTy 0) := by
      cases v <;> first
        | (exfalso; exact hne _ _ rfl)
        | simp [ownershipSafe]
    rw [hsafe]
    unfold _dynamicCastToExistentialMetatype
    dsimp only
    cases v <;> first
      | (exfalso; exact hne _ _ rfl)
      | exact ih
  case case10 src targetInstanceTy flags chain =>
    rw [ownershipSafe_classTy]
    unfold _dynamicCastToExistentialMetatype
    exact castOK_unknownClassToExistentialMetatype _ _ _ _
  case case11 src targetInstanceTy flags chain =>
    rw [ownershipSafe_objcWrapper]
    unfold _dynamicCastToExistentialMetatype
    exact castOK_unknownClassToExistentialMetatype _ _ _ _
  case case12 src targetInstanceTy flags chain =>
    rw [ownershipSafe_foreignClassTy]
    unfold _dynamicCastToExistentialMetatype
    exact castOK_unknownClassToExistentialMetatype _ _ _ _
  case case13 src srcType targetInstanceTy flags h1 h2 h3 h4 h5 h6 =>
    unfold _dynamicCastToExistentialMetatype
    rcases srcType <;> first
      | (exfalso; exact h1 _ rfl)
      | (exfalso; exact h2 _ rfl)
      | (exfalso; exact h3 _ _ _ rfl)
      | (exfalso; exact h4 _ rfl)
      | (exfalso; exact h5 _ rfl)
      | (exfalso; exact h6 _ rfl)
      | exact (castOK_fail _ _ _ _ _).weaken _
  case O => exact O

/-! ## Result-shape facts for the Optional unwrap stage -/

theorem tag_error_uncond (src : Value) (payloadType targetType : TypeDesc)
    (flags : DynamicCastFlags) (preT preC : Bool) (e : TypeDesc × TypeDesc)
    (h : checkDynamicCastFromOptionalTag src payloadType targetType flags
      preT preC = .error e) : flags.unconditional = true := by
  obtain ⟨u, tk, dd⟩ := flags
  cases u
  · exfalso
    unfold checkDynamicCastFromOptionalTag at h
    split at h
    · split at h <;> simp [_succeed, _fail] at h
    · simp at h
  · rfl

theorem tag_done_ok (src : Value) (payloadType targetType : TypeDesc)
    (flags : DynamicCastFlags) (preT : Bool) (r : CastRes)
    (h : checkDynamicCastFromOptionalTag src payloadType targetType flags
      preT false = .ok (.done r)) :
    (flags.unconditional = true → r.success = true) ∧
    (r.success = false → r.destVal = none) ∧
    r.srcConsumed = shouldDeallocateSource r.success flags := by
  obtain ⟨u, tk, dd⟩ := flags
  unfold checkDynamicCastFromOptionalTag at h
  split at h
  · split at h
    · simp only [_succeed, Except.ok.injEq, OptCheck.done.injEq] at h
      subst h
      exact ⟨fun _ => rfl, fun hs => by simp at hs,
        by simp [shouldDeallocateSource]⟩
    · cases u
      · simp only [_fail] at h
        simp at h
        subst h
        exact ⟨fun hu => by simp at hu, fun _ => rfl,
          by simp [shouldDeallocateSource]⟩
      · simp [_fail] at h
  · simp at h

theorem tag_cont_shape (src : Value) (payloadType targetType : TypeDesc)
    (flags : DynamicCastFlags) (preT preC : Bool) (pt : TypeDesc) (v : Value)
    (a b : Bool)
    (h : checkDynamicCastFromOptionalTag src payloadType targetType flags
      preT preC = .ok (.cont pt v a b)) :
    pt = payloadType ∧ v = src.optionalUnwrap ∧ a = preT ∧ b = preC ∧
      src ≠ .optNone := by
  unfold checkDynamicCastFromOptionalTag at h
  split at h
  case isTrue htag =>
    split at h <;> simp only [_succeed, _fail] at h <;>
      (try split at h) <;> simp_all
  case isFalse htag =>
    simp only [Except.ok.injEq, OptCheck.cont.injEq] at h
    obtain ⟨h1, h2, h3, h4⟩ := h
    refine ⟨h1.symm, h2.symm, h3.symm, h4.symm, ?_⟩
    intro hv
    subst hv
    simp [swift_getEnumCaseSinglePayload] at htag

/-- The preliminary whole-Optional existential attempt neither aborts
nor destroys the source: it runs with `Unconditional` and
`DestroyOnFailure` stripped. -/
theorem check_error_uncond (O : Oracle) (src : Value)
    (srcType targetType : TypeDesc) (flags : DynamicCastFlags)
    (e : TypeDesc × TypeDesc)
    (h : checkDynamicCastFromOptional O src srcType targetType flags =
      .error e) : flags.unconditional = true := by
  unfold checkDynamicCastFromOptional at h
  split at h
  case _ payloadType =>
    split at h
    case _ r cb ps =>
      rcases hpre : _dynamicCastToExistential O src (.optionalTy payloadType)
          r cb ps
          { flags with unconditional := false, destroyOnFailure := false }
        with e0 | r0
      · have := castOK_toExistential O src (.optionalTy payloadType) r cb ps
          { flags with unconditional := false, destroyOnFailure := false }
        rw [hpre] at this
        simp [CastOK] at this
      · rw [hpre] at h
        dsimp only at h
        split at h
        · simp at h
        · exact tag_error_uncond _ _ _ _ _ _ _ h
    case _ =>
      exact tag_error_uncond _ _ _ _ _ _ _ h
  case _ =>
    simp at h

theorem check_done_ok (O : Oracle) (src : Value)
    (srcType targetType : TypeDesc) (flags : DynamicCastFlags) (r : CastRes)
    (h : checkDynamicCastFromOptional O src srcType targetType flags =
      .ok (.done r)) :
    (flags.unconditional = true → r.success = true) ∧
    (r.success = false → r.destVal = none) ∧
    r.srcConsumed = shouldDeallocateSource r.success flags := by
  unfold checkDynamicCastFromOptional at h
  split at h
  case _ payloadType =>
    split at h
    case _ rr cb ps =>
      rcases hpre : _dynamicCastToExistential O src (.optionalTy payloadType)
          rr cb ps
          { flags with unconditional := false, destroyOnFailure := false }
        with e0 | r0
      · rw [hpre] at h
        simp at h
      · have hok := castOK_toExistential O src (.optionalTy payloadType) rr cb ps
          { flags with unconditional := false, destroyOnFailure := false }
        rw [hpre] at hok
        obtain ⟨hk1, hk2, hk3⟩ := hok
        rw [hpre] at h
        dsimp only at h
        split at h
        case isTrue hsucc =>
          cases h
          refine ⟨fun _ => hsucc, fun hs => absurd hsucc (by simp [hs]), ?_⟩
          rw [hk3 rfl, hsucc]
          simp [shouldDeallocateSource]
        case isFalse hsucc =>
          have hpreC : r0.srcConsumed = false := by
            rw [hk3 rfl]
            simp only [Bool.not_eq_true] at hsucc
            rw [hsucc]
            simp [shouldDeallocateSource]
          rw [hpreC] at h
          exact tag_done_ok _ _ _ _ _ _ h
    case _ =>
      exact tag_done_ok _ _ _ _ _ _ h
  case _ =>
    simp at h

theorem check_cont_pre (O : Oracle) (src : Value)
    (srcType targetType : TypeDesc) (flags : DynamicCastFlags)
    (pt : TypeDesc) (v : Value) (a b : Bool)
    (h : checkDynamicCastFromOptional O src srcType targetType flags =
      .ok (.cont pt v a b)) : b = false := by
  unfold checkDynamicCastFromOptional at h
  split at h
  case _ payloadType =>
    split at h
    case _ rr cb ps =>
      rcases hpre : _dynamicCastToExistential O src (.optionalTy payloadType)
          rr cb ps
          { flags with unconditional := false, destroyOnFailure := false }
        with e0 | r0
      · rw [hpre] at h
        simp at h
      · have hok := castOK_toExistential O src (.optionalTy payloadType) rr cb ps
          { flags with unconditional := false, destroyOnFailure := false }
        rw [hpre] at hok
        obtain ⟨hk1, hk2, hk3⟩ := hok
        rw [hpre] at h
        dsimp only at h
        split at h
        case isTrue hsucc => simp at h
        case isFalse hsucc =>
          obtain ⟨_, _, _, hb, _⟩ := tag_cont_shape _ _ _ _ _ _ _ _ _ _ h
          rw [hb, hk3 rfl]
          simp only [Bool.not_eq_true] at hsucc
          rw [hsucc]
          simp [shouldDeallocateSource]
    case _ =>
      obtain ⟨_, _, _, hb, _⟩ := tag_cont_shape _ _ _ _ _ _ _ _ _ _ h
      exact hb
  case _ =>
    cases h
    rfl

theorem check_cont_safe (O : Oracle) (src : Value)
    (srcType targetType : TypeDesc) (flags : DynamicCastFlags)
    (pt : TypeDesc) (v : Value) (a b : Bool)
    (hsafe : ownershipSafe src srcType = true)
    (h : checkDynamicCastFromOptional O src srcType targetType flags =
      .ok (.cont pt v a b)) : ownershipSafe v pt = true := by
  unfold checkDynamicCastFromOptional at h
  split at h
  case _ payloadType =>
    have key : pt = payloadType ∧ v = src.optionalUnwrap ∧ src ≠ .optNone := by
      split at h
      case _ rr cb ps =>
        rcases hpre : _dynamicCastToExistential O src (.optionalTy payloadType)
            rr cb ps
            { flags with unconditional := false, destroyOnFailure := false }
          with e0 | r0
        · rw [hpre] at h
          simp at h
        · rw [hpre] at h
          dsimp only at h
          split at h
          · simp at h
          · obtain ⟨h1, h2, _, _, h5⟩ := tag_cont_shape _ _ _ _ _ _ _ _ _ _ h
            exact ⟨h1, h2, h5⟩
      case _ =>
        obtain ⟨h1, h2, _, _, h5⟩ := tag_cont_shape _ _ _ _ _ _ _ _ _ _ h
        exact ⟨h1, h2, h5⟩
    obtain ⟨rfl, rfl, hne⟩ := key
    cases src <;> simp_all [ownershipSafe, Value.optionalUnwrap]
  case _ =>
    cases h
    exact hsafe

theorem CastOK.mono {flags : DynamicCastFlags} {s s' : Bool} {res : CastM}
    (h : CastOK flags s' res) (himp : s = true → s' = true) :
    CastOK flags s res := by
  cases res with
  | error e => exact h
  | ok r =>
    obtain ⟨h1, h2, h3⟩ := h
    exact ⟨h1, h2, fun hs => h3 (himp hs)⟩

theorem ownershipSafe_getObjectType (inner : Value) :
    ownershipSafe inner (swift_getObjectType inner) =
      !inner.isClassObject := by
  cases inner <;>
    simp [swift_getObjectType, ownershipSafe, Value.isClassObject]

theorem castOK_addPre {flags : DynamicCastFlags} {safe : Bool} {res : CastM}
    (preT : Bool) (h : CastOK flags safe res) :
    CastOK flags safe (addPreAttempt preT false res) := by
  cases res with
  | error e => exact h
  | ok r =>
    obtain ⟨h1, h2, h3⟩ := h
    exact ⟨h1, h2, fun hs => by rw [Bool.or_false]; exact h3 hs⟩

/-- A `CastOK`-preservation lemma for each result transformer. -/
theorem castOK_errorShield (flags : DynamicCastFlags) (S S' : Bool)
    (res : CastM)
    (h : CastOK { flags with takeOnSuccess := false,
                             destroyOnFailure := false } S' res) :
    CastOK flags S (errorShieldRes flags res) := by
  cases res with
  | error e => exact h
  | ok r =>
    obtain ⟨h1, h2, h3⟩ := h
    exact ⟨h1, h2, fun _ => rfl⟩

theorem castOK_opaqueHuskTo (flags : DynamicCastFlags) (S : Bool)
    (ool : Bool) (res : CastM) (h : CastOK flags S res) :
    CastOK flags S (opaqueHuskToRes flags ool res) := by
  cases res with
  | error e => exact h
  | ok r =>
    obtain ⟨h1, h2, h3⟩ := h
    refine ⟨h1, h2, fun hs => ?_⟩
    simp only [opaqueHuskToRes]
    rw [h3 hs]
    simp only [_maybeDeallocateOpaqueExistential, shouldDeallocateSource]
    cases r.success <;> cases flags.takeOnSuccess <;>
      cases flags.destroyOnFailure <;> cases ool <;> simp

theorem castOK_opaqueHuskFrom (flags : DynamicCastFlags) (S : Bool)
    (ool : Bool) (res : CastM) (h : CastOK flags S res) :
    CastOK flags S (opaqueHuskFromRes flags ool res) := by
  cases res with
  | error e => exact h
  | ok r =>
    obtain ⟨h1, h2, h3⟩ := h
    refine ⟨h1, h2, fun hs => ?_⟩
    simp only [opaqueHuskFromRes]
    rw [h3 hs]
    simp only [_maybeDeallocateOpaqueExistential, shouldDeallocateSource]
    cases r.success <;> cases flags.takeOnSuccess <;>
      cases flags.destroyOnFailure <;> cases ool <;> simp

theorem castOK_optStamp (flags : DynamicCastFlags) (S : Bool) (res : CastM)
    (h : CastOK flags S res) :
    CastOK flags S (optStampRes res) := by
  cases res with
  | error e => exact h
  | ok r =>
    obtain ⟨h1, h2, h3⟩ := h
    simp only [optStampRes]
    by_cases hsucc : r.success = true
    · rw [if_pos hsucc]
      refine ⟨fun _ => hsucc, fun hx => ?_, fun hs => h3 hs⟩
      have hx2 : r.success = false := hx
      rw [hsucc] at hx2
      simp at hx2
    · rw [if_neg hsucc]
      exact ⟨h1, h2, h3⟩

/-- One-step lexicographic decrease for the unwrapping recursion: the
second component is unchanged, and either the first strictly drops or
it is unchanged and the third strictly drops. -/
theorem lex4_cast {a A b c C d D : Nat}
    (h : a < A ∨ (a = A ∧ c < C)) :
    Prod.Lex (· < ·) (Prod.Lex (· < ·) (Prod.Lex (· < ·) (· < ·)))
      (a, b, c, d) (A, b, C, D) := by
  rcases h with h | ⟨rfl, h⟩
  · exact lex4_1 h
  · exact lex4_3 (Nat.le_refl _) (Nat.le_refl _) h

set_option maxHeartbeats 1600000 in
mutual

/-- `CastOK` holds for `_dynamicCastToUnknownClassFromExistential`. -/
theorem castOK_toUnknownClassFromExistential (O : Oracle) (src : Value)
    (srcType targetType : TypeDesc) (flags : DynamicCastFlags) :
    CastOK flags (ownershipSafe src srcType)
      (_dynamicCastToUnknownClassFromExistential O src srcType targetType flags) := by
  unfold _dynamicCastToUnknownClassFromExistential
  rcases srcType with _ | _ | _ | _ | _ | _ | _ | _ | ⟨r, cb, ps⟩ | _ | _ | _ | _ | _ | _ | _ | _
  case classTy => exact (castOK_fail _ _ _ _ _).weaken _
  case objcWrapper => exact (castOK_fail _ _ _ _ _).weaken _
  case foreignClassTy => exact (castOK_fail _ _ _ _ _).weaken _
  case structTy => exact (castOK_fail _ _ _ _ _).weaken _
  case enumTy => exact (castOK_fail _ _ _ _ _).weaken _
  case optionalTy => exact (castOK_fail _ _ _ _ _).weaken _
  case tupleTy => exact (castOK_fail _ _ _ _ _).weaken _
  case functionTy => exact (castOK_fail _ _ _ _ _).weaken _
  case metatypeTy => exact (castOK_fail _ _ _ _ _).weaken _
  case existentialMetatypeTy => exact (castOK_fail _ _ _ _ _).weaken _
  case opaqueTy => exact (castOK_fail _ _ _ _ _).weaken _
  case heapLocalTy => exact (castOK_fail _ _ _ _ _).weaken _
  case heapGenericLocalTy => exact (castOK_fail _ _ _ _ _).weaken _
  case errorObjectTy => exact (castOK_fail _ _ _ _ _).weaken _
  case argNil => exact (castOK_fail _ _ _ _ _).weaken _
  case argCons => exact (castOK_fail _ _ _ _ _).weaken _
  rcases r with _ | _ | _
  · rw [ownershipSafe_existClass]
    exact (castOK_indirect _ _ _).weaken _
  · rcases src with _ | _ | _ | _ | _ | w | m | i | ⟨d, ool, p⟩ | ⟨d, p⟩ <;>
      dsimp only
    case existOpaque =>
      exact (castOK_opaqueHuskTo flags _ ool _
        (castOK_cast O p d targetType flags)).mono
        (fun hs => by simp_all [ownershipSafe])
    all_goals
      exact (castOK_cast O _ (TypeDesc.structTy 0) targetType flags).mono
        (fun hs => by simp_all [ownershipSafe])
  · rcases src with _ | _ | _ | _ | _ | w | m | i | ⟨d, ool, p⟩ | ⟨d, p⟩ <;>
      dsimp only
    case errorBox =>
      exact castOK_errorShield flags _ _ _
        (castOK_cast O p d targetType
          { flags with takeOnSuccess := false, destroyOnFailure := false })
    all_goals
      exact castOK_errorShield flags _ _ _
        (castOK_cast O _ (TypeDesc.structTy 0) targetType
          { flags with takeOnSuccess := false, destroyOnFailure := false })
termination_by (src.depth, targetType.depth, srcType.unwrapWeight, 0)
decreasing_by
  all_goals
    refine lex4_cast ?_
    simp only [Value.depth, TypeDesc.unwrapWeight, true_and]
    omega

/-- `CastOK` holds for `_dynamicCastFromExistential`. -/
theorem castOK_fromExistential (O : Oracle) (src : Value)
    (srcType targetType : TypeDesc) (flags : DynamicCastFlags) :
    CastOK flags (ownershipSafe src srcType)
      (_dynamicCastFromExistential O src srcType targetType flags) := by
  unfold _dynamicCastFromExistential
  rcases srcType with _ | _ | _ | _ | _ | _ | _ | _ | ⟨r, cb, ps⟩ | _ | _ | _ | _ | _ | _ | _ | _
  case classTy => exact (castOK_fail _ _ _ _ _).weaken _
  case objcWrapper => exact (castOK_fail _ _ _ _ _).weaken _
  case foreignClassTy => exact (castOK_fail _ _ _ _ _).weaken _
  case structTy => exact (castOK_fail _ _ _ _ _).weaken _
  case enumTy => exact (castOK_fail _ _ _ _ _).weaken _
  case optionalTy => exact (castOK_fail _ _ _ _ _).weaken _
  case tupleTy => exact (castOK_fail _ _ _ _ _).weaken _
  case functionTy => exact (castOK_fail _ _ _ _ _).weaken _
  case metatypeTy => exact (castOK_fail _ _ _ _ _).weaken _
  case existentialMetatypeTy => exact (castOK_fail _ _ _ _ _).weaken _
  case opaqueTy => exact (castOK_fail _ _ _ _ _).weaken _
  case heapLocalTy => exact (castOK_fail _ _ _ _ _).weaken _
  case heapGenericLocalTy => exact (castOK_fail _ _ _ _ _).weaken _
  case errorObjectTy => exact (castOK_fail _ _ _ _ _).weaken _
  case argNil => exact (castOK_fail _ _ _ _ _).weaken _
  case argCons => exact (castOK_fail _ _ _ _ _).weaken _
  rcases r with _ | _ | _
  · rw [ownershipSafe_existClass]
    have ih := castOK_cast O src.existClassInner
      (swift_getObjectType src.existClassInner) targetType flags
    rw [ownershipSafe_getObjectType] at ih
    exact ih
  · rcases src with _ | _ | _ | _ | _ | w | m | i | ⟨d, ool, p⟩ | ⟨d, p⟩ <;>
      dsimp only
    case existOpaque =>
      exact (castOK_opaqueHuskFrom flags _ ool _
        (castOK_cast O p d targetType flags)).mono
        (fun hs => by simp_all [ownershipSafe])
    all_goals
      exact (castOK_cast O _ (TypeDesc.structTy 0) targetType flags).mono
        (fun hs => by simp_all [ownershipSafe])
  · rcases src with _ | _ | _ | _ | _ | w | m | i | ⟨d, ool, p⟩ | ⟨d, p⟩ <;>
      dsimp only
    case errorBox =>
      exact castOK_errorShield flags _ _ _
        (castOK_cast O p d targetType
          { flags with takeOnSuccess := false, destroyOnFailure := false })
    all_goals
      exact castOK_errorShield flags _ _ _
        (castOK_cast O _ (TypeDesc.structTy 0) targetType
          { flags with takeOnSuccess := false, destroyOnFailure := false })
termination_by (src.depth, targetType.depth, srcType.unwrapWeight, 0)
decreasing_by
  all_goals
    first
    | (rcases existClassInner_measure src with h | ⟨h1, h2⟩
       · exact lex4_cast (Or.inl h)
       · refine lex4_cast (Or.inr ⟨?_, ?_⟩)
         · rw [h1]
         · rw [h2]
           simp only [TypeDesc.unwrapWeight]
           omega)
    | (refine lex4_cast ?_
       simp only [Value.depth, TypeDesc.unwrapWeight, true_and]
       omega)

/-- `CastOK` holds for `_dynamicCastToFunction`. -/
theorem castOK_toFunction (O : Oracle) (src : Value)
    (srcType targetType : TypeDesc) (flags : DynamicCastFlags) :
    CastOK flags (ownershipSafe src srcType)
      (_dynamicCastToFunction O src srcType targetType flags) := by
  unfold _dynamicCastToFunction
  split
  · exact (castOK_succeed _ _ _).weaken _
  · rcases srcType with _ | _ | _ | _ | _ | _ | _ | ⟨sc, st, sa, sr⟩ | ⟨r, cb, ps⟩ | _ | _ | _ | _ | _ | _ | _ | _
    case classTy => exact (castOK_fail _ _ _ _ _).weaken _
    case objcWrapper => exact (castOK_fail _ _ _ _ _).weaken _
    case foreignClassTy => exact (castOK_fail _ _ _ _ _).weaken _
    case structTy => exact (castOK_fail _ _ _ _ _).weaken _
    case enumTy => exact (castOK_fail _ _ _ _ _).weaken _
    case optionalTy => exact (castOK_fail _ _ _ _ _).weaken _
    case tupleTy => exact (castOK_fail _ _ _ _ _).weaken _
    case metatypeTy => exact (castOK_fail _ _ _ _ _).weaken _
    case existentialMetatypeTy => exact (castOK_fail _ _ _ _ _).weaken _
    case opaqueTy => exact (castOK_fail _ _ _ _ _).weaken _
    case heapLocalTy => exact (castOK_fail _ _ _ _ _).weaken _
    case heapGenericLocalTy => exact (castOK_fail _ _ _ _ _).weaken _
    case errorObjectTy => exact (castOK_fail _ _ _ _ _).weaken _
    case argNil => exact (castOK_fail _ _ _ _ _).weaken _
    case argCons => exact (castOK_fail _ _ _ _ _).weaken _
    · rcases targetType with _ | _ | _ | _ | _ | _ | _ | ⟨tc, tt, ta, tr⟩ | _ | _ | _ | _ | _ | _ | _ | _ | _
      case classTy => exact (castOK_fail _ _ _ _ _).weaken _
      case objcWrapper => exact (castOK_fail _ _ _ _ _).weaken _
      case foreignClassTy => exact (castOK_fail _ _ _ _ _).weaken _
      case structTy => exact (castOK_fail _ _ _ _ _).weaken _
      case enumTy => exact (castOK_fail _ _ _ _ _).weaken _
      case optionalTy => exact (castOK_fail _ _ _ _ _).weaken _
      case tupleTy => exact (castOK_fail _ _ _ _ _).weaken _
      case existentialTy => exact (castOK_fail _ _ _ _ _).weaken _
      case metatypeTy => exact (castOK_fail _ _ _ _ _).weaken _
      case existentialMetatypeTy => exact (castOK_fail _ _ _ _ _).weaken _
      case opaqueTy => exact (castOK_fail _ _ _ _ _).weaken _
      case heapLocalTy => exact (castOK_fail _ _ _ _ _).weaken _
      case heapGenericLocalTy => exact (castOK_fail _ _ _ _ _).weaken _
      case errorObjectTy => exact (castOK_fail _ _ _ _ _).weaken _
      case argNil => exact (castOK_fail _ _ _ _ _).weaken _
      case argCons => exact (castOK_fail _ _ _ _ _).weaken _
      dsimp only
      split
      · exact (castOK_fail _ _ _ _ _).weaken _
      · split
        · exact (castOK_fail _ _ _ _ _).weaken _
        · split
          · exact (castOK_fail _ _ _ _ _).weaken _
          · split
            · exact (castOK_fail _ _ _ _ _).weaken _
            · split
              · exact (castOK_fail _ _ _ _ _).weaken _
              · exact (castOK_succeed _ _ _).weaken _
    · exact castOK_fromExistential O src _ targetType flags
termination_by (src.depth, targetType.depth, srcType.unwrapWeight, 1)
decreasing_by
  all_goals
    exact lex4_4 (Nat.le_refl _) (Nat.le_refl _) (Nat.le_refl _) (by omega)

/-- `CastOK` holds for `swift_dynamicCast`. -/
theorem castOK_cast (O : Oracle) (src : Value)
    (srcType targetType : TypeDesc) (flags : DynamicCastFlags) :
    CastOK flags (ownershipSafe src srcType)
      (swift_dynamicCast O src srcType targetType flags) := by
  unfold swift_dynamicCast
  split
  case h_1 e heq =>
    exact check_error_uncond O src srcType targetType flags e heq
  case h_2 r heq =>
    obtain ⟨d1, d2, d3⟩ := check_done_ok O src srcType targetType flags r heq
    exact ⟨d1, d2, fun _ => d3⟩
  case h_3 srcType' src' preT preC heq =>
    obtain rfl := check_cont_pre O src srcType targetType flags
      srcType' src' preT preC heq
    have hcs : ownershipSafe src srcType = true →
        ownershipSafe src' srcType' = true := fun hs =>
      check_cont_safe O src srcType targetType flags
        srcType' src' preT false hs heq
    apply castOK_addPre preT
    rcases targetType with _ | _ | _ | _ | _ | ⟨payloadType⟩ | _ | _ | ⟨tr, tcb, tps⟩ | ⟨ti⟩ | ⟨ti⟩ | _ | _ | _ | _ | _ | _
    case optionalTy =>
      dsimp only
      rcases srcType' with _ | _ | _ | _ | _ | _ | _ | _ | ⟨er, ecb, eps⟩ | _ | _ | _ | _ | _ | _ | _ | _ <;>
        dsimp only <;>
        first
        | exact (castOK_fromExistential O src' (.existentialTy er ecb eps)
            (.optionalTy payloadType) flags).mono hcs
        | exact (castOK_optStamp flags _ _
            (castOK_cast O src' _ payloadType flags)).mono hcs
    case classTy =>
      dsimp only
      rcases srcType' with _ | _ | _ | _ | _ | _ | _ | _ | ⟨er, ecb, eps⟩ | _ | _ | _ | _ | _ | _ | _ | _ <;>
        dsimp only <;>
        first
        | exact (castOK_indirect _ _ _).weaken _
        | exact (castOK_toUnknownClassFromExistential O src'
            (.existentialTy er ecb eps) _ flags).mono hcs
        | exact (castOK_fail _ _ _ _ _).weaken _
    case objcWrapper =>
      dsimp only
      rcases srcType' with _ | _ | _ | _ | _ | _ | _ | _ | ⟨er, ecb, eps⟩ | _ | _ | _ | _ | _ | _ | _ | _ <;>
        dsimp only <;>
        first
        | exact (castOK_indirect _ _ _).weaken _
        | exact (castOK_toUnknownClassFromExistential O src'
            (.existentialTy er ecb eps) _ flags).mono hcs
        | exact (castOK_fail _ _ _ _ _).weaken _
    case foreignClassTy =>
      dsimp only
      rcases srcType' with _ | _ | _ | _ | _ | _ | _ | _ | ⟨er, ecb, eps⟩ | _ | _ | _ | _ | _ | _ | _ | _ <;>
        dsimp only <;>
        first
        | exact (castOK_indirect _ _ _).weaken _
        | exact (castOK_toUnknownClassFromExistential O src'
            (.existentialTy er ecb eps) _ flags).mono hcs
        | exact (castOK_fail _ _ _ _ _).weaken _
    case existentialTy =>
      exact (castOK_toExistential O src' srcType' tr tcb tps flags).weaken _
    case metatypeTy =>
      exact (castOK_toMetatype src' srcType' ti flags).mono hcs
    case existentialMetatypeTy =>
      exact (castOK_toExistentialMetatype O src' srcType' ti flags).mono hcs
    case functionTy =>
      exact (castOK_toFunction O src' srcType' _ flags).mono hcs
    all_goals
      dsimp only
    all_goals
      split
    all_goals
      first
      | exact (castOK_succeed _ _ _).weaken _
      | (rcases srcType' with _ | _ | _ | _ | _ | _ | _ | _ | ⟨er, ecb, eps⟩ | _ | _ | _ | _ | _ | _ | _ | _ <;>
          dsimp only <;>
          first
          | exact (castOK_fromExistential O src'
              (.existentialTy er ecb eps) _ flags).mono hcs
          | exact (castOK_fail _ _ _ _ _).weaken _)
termination_by (src.depth, targetType.depth, srcType.unwrapWeight, 2)
decreasing_by
  all_goals
    obtain ⟨hv, ht⟩ := checkDynamicCastFromOptional_cont_depth O src srcType
      _ flags _ _ _ _ heq
    refine lex4_auto hv ht ?_
    first
    | exact Or.inr ⟨rfl, by omega⟩
    | exact Or.inl (by simp only [TypeDesc.depth]; omega)

end

/-! ## The frozen claims -/

/-- A cast call's boolean outcome: the success bit of a returned
result; an abort counts as not-returned. -/
def CastM.succeeded : CastM → Bool
  | .ok r => r.success
  | .error _ => false

theorem succeeded_fail (v : Value) (s t : TypeDesc) (f : DynamicCastFlags)
    (dyn : Option TypeDesc) : (_fail v s t f dyn).succeeded = false := by
  unfold _fail
  split <;> rfl

theorem succeeded_succeed (v : Value) (s : TypeDesc) (f : DynamicCastFlags) :
    (_succeed v s f).succeeded = true := rfl

/-- An oracle granting no witness tables at all. -/
def emptyOracle : Oracle := ⟨fun _ _ => none⟩

/-- C1: whenever `swift_dynamicCast` returns a result for an
ownership-bearing source, the engine released the source's ownership
exactly when `shouldDeallocateSource(succeeded, flags) = (succeeded &&
TakeOnSuccess) || (!succeeded && DestroyOnFailure)` holds: one release
when the predicate is true, none when it is false. -/
theorem C1_ownership_rule (O : Oracle) (src : Value)
    (srcType targetType : TypeDesc) (flags : DynamicCastFlags) (r : CastRes)
    (hsafe : ownershipSafe src srcType = true)
    (hres : swift_dynamicCast O src srcType targetType flags = .ok r) :
    r.srcConsumed = shouldDeallocateSource r.success flags := by
  have h := castOK_cast O src srcType targetType flags
  rw [hres] at h
  exact h.2.2 hsafe

theorem C1_ownership_rule_witness :
    ownershipSafe (.leaf 0) (.structTy 1) = true ∧
    ({ success := true, destVal := some (.leaf 0), destTouched := true,
       srcConsumed := true } : CastRes).srcConsumed =
      shouldDeallocateSource true
        { unconditional := false, takeOnSuccess := true,
          destroyOnFailure := false } :=
  ⟨by simp [ownershipSafe],
   C1_ownership_rule emptyOracle (.leaf 0) (.structTy 1) (.structTy 1)
    { unconditional := false, takeOnSuccess := true, destroyOnFailure := false }
    _ (by simp [ownershipSafe])
    (by simp [swift_dynamicCast, checkDynamicCastFromOptional, addPreAttempt,
      _succeed])⟩

/-- C7: with `Unconditional` set a failing cast never returns — every
failing branch produces a diagnostic abort carrying both the source and
target type descriptors — so a returned result implies success; and
conversely an abort only ever happens in unconditional mode. -/
theorem C7_unconditional_never_returns_failure (O : Oracle) (src : Value)
    (srcType targetType : TypeDesc) (flags : DynamicCastFlags) :
    (∀ r, flags.unconditional = true →
      swift_dynamicCast O src srcType targetType flags = .ok r →
        r.success = true) ∧
    (∀ e, swift_dynamicCast O src srcType targetType flags = .error e →
      flags.unconditional = true) := by
  constructor
  · intro r hu hres
    have h := castOK_cast O src srcType targetType flags
    rw [hres] at h
    exact h.1 hu
  · intro e hres
    have h := castOK_cast O src srcType targetType flags
    rw [hres] at h
    exact h

theorem C7_unconditional_never_returns_failure_witness :
    ({ unconditional := true, takeOnSuccess := false,
       destroyOnFailure := false } : DynamicCastFlags).unconditional = true :=
  (C7_unconditional_never_returns_failure emptyOracle (.leaf 0) (.structTy 1)
    (.structTy 2)
    { unconditional := true, takeOnSuccess := false,
      destroyOnFailure := false }).2
    (.structTy 1, .structTy 2)
    (by simp [swift_dynamicCast, checkDynamicCastFromOptional, addPreAttempt,
      _fail])

/-- C2 refutation: a failing conditional cast can leave scratch writes
in the destination buffer.  Casting the concrete metatype
`(S1.Type).self` to `P.Type.Type` (with `P` unsatisfied) proactively
stores the source metatype word into the destination before the
conformance check fails, so the result is a conditional failure with
`destTouched = true`. -/
theorem C2_counterexample :
    (DynamicCastFlags.default.unconditional = false) ∧
    swift_dynamicCast emptyOracle (.metatypeVal (.metatypeTy (.structTy 1)))
      (.metatypeTy (.metatypeTy (.structTy 1)))
      (.existentialMetatypeTy (.existentialMetatypeTy
        (.existentialTy .opaqueRepr false
          [{ pid := 0, needsWitnessTable := true, isAnyObject := false,
             strategy := .swiftStrategy }])))
      .default =
      .ok { success := false, destVal := none, destTouched := true,
            srcConsumed := false } := by
  constructor
  · rfl
  · simp [swift_dynamicCast, checkDynamicCastFromOptional, addPreAttempt,
      _dynamicCastToExistentialMetatype, Value.asStoredMetadata,
      _dynamicCastMetatypeToExistentialMetatype, _conformsToProtocols,
      _conformsToProtocol, emptyOracle, DynamicCastFlags.default]

/-- C2 (amended): a failing conditional cast never leaves a completed
value in the destination — `destVal = none` on every failing path —
although scratch writes (partially collected witness tables and the
proactively stored metatype word) may have touched the buffer, as
`C2_counterexample` exhibits. -/
theorem C2_no_partial_result (O : Oracle) (src : Value)
    (srcType targetType : TypeDesc) (flags : DynamicCastFlags) (r : CastRes)
    (hres : swift_dynamicCast O src srcType targetType flags = .ok r)
    (hfail : r.success = false) :
    r.destVal = none := by
  have h := castOK_cast O src srcType targetType flags
  rw [hres] at h
  exact h.2.1 hfail

theorem C2_no_partial_result_witness :
    ({ success := false, destVal := none, destTouched := false,
       srcConsumed := false } : CastRes).destVal = none :=
  C2_no_partial_result emptyOracle (.leaf 0) (.structTy 1) (.structTy 2)
    .default _
    (by simp [swift_dynamicCast, checkDynamicCastFromOptional, addPreAttempt,
      _fail, DynamicCastFlags.default])
    rfl

/-- The superclass walk finds the target class exactly when the target
chain is a (nonempty) suffix of the walked chain. -/
theorem classMetatype_walk_isSome (sourceType targetType : List Nat)
    (l : List Nat) :
    ((_dynamicCastClassMetatype.walk sourceType targetType l).isSome = true ↔
      (targetType <:+ l ∧ targetType ≠ [])) := by
  induction l with
  | nil =>
    simp only [_dynamicCastClassMetatype.walk, Option.isSome_none,
      List.suffix_nil]
    constructor
    · intro h
      cases h
    · rintro ⟨rfl, hne⟩
      exact absurd rfl hne
  | cons c rest ih =>
    simp only [_dynamicCastClassMetatype.walk]
    by_cases h1 : c :: rest = targetType
    · rw [if_pos h1]
      subst h1
      simp
    · rw [if_neg h1]
      by_cases h2 : rest = []
      · subst h2
        rw [if_pos rfl]
        simp only [Option.isSome_none, List.suffix_cons_iff, List.suffix_nil]
        constructor
        · intro h
          cases h
        · rintro ⟨rfl | rfl, hne⟩
          · exact absurd rfl h1
          · exact absurd rfl hne
      · rw [if_neg h2, ih, List.suffix_cons_iff]
        constructor
        · rintro ⟨hs, hne⟩
          exact ⟨Or.inr hs, hne⟩
        · rintro ⟨rfl | hs, hne⟩
          · exact absurd rfl h1
          · exact ⟨hs, hne⟩

theorem dynamicCastClassMetatype_isSome (sc tc : List Nat) :
    ((_dynamicCastClassMetatype sc tc).isSome = true ↔
      (tc <:+ sc ∧ tc ≠ [])) :=
  classMetatype_walk_isSome sc tc sc

/-- Is this descriptor one of the three class kinds? -/
def TypeDesc.isClassKind : TypeDesc → Bool
  | .classTy _ | .objcWrapper _ | .foreignClassTy _ => true
  | _ => false

/-- C3: the metatype check is instance-of, not subtype-of.  A class
metatype casts to a class target exactly when the target class is
reached by the superclass walk (the described class is the target or a
transitive subclass), and a cast to any non-class target kind succeeds
exactly when the two uniqued descriptors are equal. -/
theorem C3_metatype_instance_of :
    (∀ sourceChain targetChain : List Nat, targetChain ≠ [] →
      ((swift_dynamicCastMetatype (.classTy sourceChain)
          (.classTy targetChain)).isSome = true ↔
        targetChain <:+ sourceChain)) ∧
    (∀ s t : TypeDesc, t.isClassKind = false →
      ((swift_dynamicCastMetatype s t).isSome = true ↔ s = t)) := by
  constructor
  · intro sc tc hne
    show ((if (swift_dynamicCastObjCClassMetatype sc tc).isSome
           then some (TypeDesc.classTy sc) else none).isSome = true ↔ _)
    rw [show swift_dynamicCastObjCClassMetatype sc tc =
      _dynamicCastClassMetatype sc tc from rfl]
    by_cases h : (_dynamicCastClassMetatype sc tc).isSome = true
    · rw [if_pos h]
      simp only [Option.isSome_some, true_iff]
      exact ((dynamicCastClassMetatype_isSome sc tc).mp h).1
    · rw [if_neg (by simpa using h)]
      simp only [Option.isSome_none]
      constructor
      · intro hx
        cases hx
      · intro hs
        exact absurd ((dynamicCastClassMetatype_isSome sc tc).mpr
          ⟨hs, hne⟩) h
  · intro s t ht
    have : swift_dynamicCastMetatype s t =
        if s = t then some s else none := by
      unfold swift_dynamicCastMetatype
      cases t <;> simp [TypeDesc.isClassKind] at ht ⊢
    rw [this]
    by_cases h : s = t
    · rw [if_pos h]
      simp [h]
    · rw [if_neg h]
      simp [h]

theorem C3_metatype_instance_of_witness :
    ((swift_dynamicCastMetatype (.classTy [5, 3]) (.classTy [3])).isSome =
      true) ∧
    ((swift_dynamicCastMetatype (.structTy 2) (.structTy 2)).isSome = true) :=
  ⟨(C3_metatype_instance_of.1 [5, 3] [3] (by simp)).mpr ⟨[5], rfl⟩,
   (C3_metatype_instance_of.2 (.structTy 2) (.structTy 2) rfl).mpr rfl⟩

/-- C5: function casts succeed on an exact descriptor match, or when
the calling convention, every argument (type and by-reference flag) and
the result type agree, with throwing asymmetric: non-throwing source to
throwing target is allowed, a throwing source never casts to a
non-throwing target; an argument mismatch fails regardless of
throwing. -/
theorem C5_function_cast (O : Oracle) (src : Value)
    (sc : Nat) (st : Bool) (sa sr : TypeDesc)
    (tc : Nat) (tt : Bool) (ta tr : TypeDesc) (flags : DynamicCastFlags) :
    ((_dynamicCastToFunction O src (.functionTy sc st sa sr)
        (.functionTy tc tt ta tr) flags).succeeded = true ↔
      (TypeDesc.functionTy sc st sa sr = .functionTy tc tt ta tr ∨
        (sc = tc ∧ sa = ta ∧ sr = tr ∧ (st = true → tt = true)))) := by
  unfold _dynamicCastToFunction
  by_cases heq : TypeDesc.functionTy sc st sa sr = .functionTy tc tt ta tr
  · rw [if_pos heq, succeeded_succeed]
    simp [heq]
  · rw [if_neg heq]
    dsimp only
    split
    · rename_i h1
      rw [succeeded_fail]
      simp only [Bool.false_eq_true, false_iff]
      rintro (h | ⟨rfl, rfl, rfl, himp⟩)
      · exact heq h
      · simp at h1
    · rename_i h1
      split
      · rename_i h2
        rw [succeeded_fail]
        simp only [Bool.false_eq_true, false_iff]
        rintro (h | ⟨rfl, rfl, rfl, himp⟩)
        · exact heq h
        · rw [Bool.and_eq_true] at h2
          obtain ⟨hst, hnt⟩ := h2
          rw [himp hst] at hnt
          simp at hnt
      · rename_i h2
        split
        · rename_i h3
          rw [succeeded_fail]
          simp only [Bool.false_eq_true, false_iff]
          rintro (h | ⟨rfl, rfl, rfl, himp⟩)
          · exact heq h
          · simp at h3
        · rename_i h3
          split
          · rename_i h4
            rw [succeeded_fail]
            simp only [Bool.false_eq_true, false_iff]
            rintro (h | ⟨rfl, rfl, rfl, himp⟩)
            · exact heq h
            · simp at h4
          · rename_i h4
            split
            · rename_i h5
              rw [succeeded_fail]
              simp only [Bool.false_eq_true, false_iff]
              rintro (h | ⟨rfl, rfl, rfl, himp⟩)
              · exact heq h
              · simp at h5
            · rename_i h5
              rw [succeeded_succeed]
              simp only [true_iff]
              simp only [bne_iff_ne, ne_eq, Bool.or_eq_true, not_or,
                not_not] at h1 h3 h5
              refine Or.inr ⟨h1.2, h5, h3, fun hst => ?_⟩
              cases htt : tt
              · exfalso
                exact h2 (by rw [hst, htt]; rfl)
              · rfl

/-- C6: for an Optional source and an existential target the engine
first attempts the existential cast on the whole Optional value,
without unwrapping its case tag (preserving the nil/non-nil
distinction); only when that preliminary attempt reports failure does
dispatch continue with the unwrapped payload. -/
theorem C6_optional_to_existential_preattempt (O : Oracle) (src v : Value)
    (pt : TypeDesc) (r : ExistRepr) (cb : Bool) (ps : List ProtocolDesc)
    (flags : DynamicCastFlags) (res : CastRes)
    (hpre : _dynamicCastToExistential O src (.optionalTy pt) r cb ps
      { flags with unconditional := false, destroyOnFailure := false } =
        .ok res) :
    (res.success = true →
      swift_dynamicCast O src (.optionalTy pt) (.existentialTy r cb ps)
        flags = .ok res) ∧
    (res.success = false → src = .optSome v →
      swift_dynamicCast O src (.optionalTy pt) (.existentialTy r cb ps)
        flags =
        addPreAttempt res.destTouched res.srcConsumed
          (_dynamicCastToExistential O v pt r cb ps flags)) := by
  constructor
  · intro hsucc
    have hch : checkDynamicCastFromOptional O src (.optionalTy pt)
        (.existentialTy r cb ps) flags = .ok (.done res) := by
      unfold checkDynamicCastFromOptional
      dsimp only
      rw [hpre]
      simp [hsucc]
    unfold swift_dynamicCast
    split
    case h_1 e heq =>
      rw [hch] at heq
      simp at heq
    case h_2 r2 heq =>
      rw [hch] at heq
      simp only [Except.ok.injEq] at heq
      cases heq
      rfl
    case h_3 srcType2 src2 preT preC heq =>
      rw [hch] at heq
      simp at heq
  · intro hfail hsrc
    subst hsrc
    have hch : checkDynamicCastFromOptional O (.optSome v) (.optionalTy pt)
        (.existentialTy r cb ps) flags =
        .ok (.cont pt v res.destTouched res.srcConsumed) := by
      unfold checkDynamicCastFromOptional
      dsimp only
      rw [hpre]
      simp [hfail, checkDynamicCastFromOptionalTag,
        swift_getEnumCaseSinglePayload, Value.optionalUnwrap]
    unfold swift_dynamicCast
    split
    case h_1 e heq =>
      rw [hch] at heq
      simp at heq
    case h_2 r2 heq =>
      rw [hch] at heq
      simp at heq
    case h_3 srcType2 src2 preT preC heq =>
      rw [hch] at heq
      simp only [Except.ok.injEq, OptCheck.cont.injEq] at heq
      obtain ⟨h1, h2, h3, h4⟩ := heq
      subst h1
      subst h2
      subst h3
      subst h4
      rfl

theorem C6_optional_to_existential_preattempt_witness :
    swift_dynamicCast emptyOracle .optNone (.optionalTy (.structTy 1))
      (.existentialTy .opaqueRepr false []) .default =
      .ok { success := true,
            destVal := some (.existOpaque (.optionalTy (.structTy 1)) false
              .optNone),
            destTouched := true, srcConsumed := false } :=
  (C6_optional_to_existential_preattempt emptyOracle .optNone .optNone
    (.structTy 1) .opaqueRepr false [] .default
    { success := true,
      destVal := some (.existOpaque (.optionalTy (.structTy 1)) false
        .optNone),
      destTouched := true, srcConsumed := false }
    (by simp [_dynamicCastToExistential, findDynamicValueAndType,
      _conformsToProtocols, DynamicCastFlags.default,
      shouldDeallocateSource])).1 rfl

/-- C10: the preliminary whole-Optional existential attempt runs with
`Unconditional` and `DestroyOnFailure` stripped: it never aborts, and
when it fails it has not released the source; accordingly the
continuation the dispatcher receives carries no source release. -/
theorem C10_stripped_preattempt (O : Oracle) (src : Value)
    (pt : TypeDesc) (r : ExistRepr) (cb : Bool) (ps : List ProtocolDesc)
    (flags : DynamicCastFlags) :
    (∀ e, _dynamicCastToExistential O src (.optionalTy pt) r cb ps
        { flags with unconditional := false, destroyOnFailure := false } ≠
      .error e) ∧
    (∀ res, _dynamicCastToExistential O src (.optionalTy pt) r cb ps
        { flags with unconditional := false, destroyOnFailure := false } =
          .ok res →
      res.success = false → res.srcConsumed = false) ∧
    (∀ pt2 v2 a b,
      checkDynamicCastFromOptional O src (.optionalTy pt)
        (.existentialTy r cb ps) flags = .ok (.cont pt2 v2 a b) →
        b = false) := by
  refine ⟨?_, ?_, ?_⟩
  · intro e he
    have h := castOK_toExistential O src (.optionalTy pt) r cb ps
      { flags with unconditional := false, destroyOnFailure := false }
    rw [he] at h
    simp [CastOK] at h
  · intro res hres hfail
    have h := castOK_toExistential O src (.optionalTy pt) r cb ps
      { flags with unconditional := false, destroyOnFailure := false }
    rw [hres] at h
    have h3 := h.2.2 rfl
    rw [hfail] at h3
    rw [h3]
    simp [shouldDeallocateSource]
  · intro pt2 v2 a b hc
    exact check_cont_pre O src (.optionalTy pt) (.existentialTy r cb ps)
      flags pt2 v2 a b hc

theorem C10_stripped_preattempt_witness :
    ({ success := false, destVal := none, destTouched := false,
       srcConsumed := false } : CastRes).srcConsumed = false :=
  (C10_stripped_preattempt emptyOracle (.optSome (.leaf 0)) (.structTy 1)
    .opaqueRepr false
    [{ pid := 0, needsWitnessTable := true, isAnyObject := false,
       strategy := .swiftStrategy }] .default).2.1
    { success := false, destVal := none, destTouched := false,
      srcConsumed := false }
    (by simp [_dynamicCastToExistential, findDynamicValueAndType,
      _conformsToProtocols, _conformsToProtocol, emptyOracle,
      withDestWrites, _fail, DynamicCastFlags.default])
    rfl

/-- Is this descriptor an Optional? -/
def TypeDesc.isOptionalKind : TypeDesc → Bool
  | .optionalTy _ => true
  | _ => false

/-- Is this descriptor an existential? -/
def TypeDesc.isExistentialKind : TypeDesc → Bool
  | .existentialTy _ _ _ => true
  | _ => false

/-- C4 refutation: an empty Optional source casts *successfully* to a
non-Optional target when that target is an existential the whole
Optional satisfies (here `Any`): the claimed "succeeds if and only if
the target type is also Optional" does not hold. -/
theorem C4_counterexample :
    TypeDesc.isOptionalKind (.existentialTy .opaqueRepr false []) = false ∧
    (swift_dynamicCast emptyOracle .optNone (.optionalTy (.structTy 1))
      (.existentialTy .opaqueRepr false []) .default).succeeded = true := by
  constructor
  · rfl
  · simp [swift_dynamicCast, checkDynamicCastFromOptional, addPreAttempt,
      _dynamicCastToExistential, findDynamicValueAndType,
      _conformsToProtocols, DynamicCastFlags.default, CastM.succeeded]

/-- C4 (amended): restricted to non-existential targets the spec rule
holds — an empty Optional source succeeds exactly at Optional targets,
propagating the empty case into the destination, and fails (per the
failure protocol) at every other target. -/
theorem C4_empty_optional (O : Oracle) (pt u targetType : TypeDesc)
    (flags : DynamicCastFlags)
    (hne : targetType.isExistentialKind = false) :
    (targetType = .optionalTy u →
      swift_dynamicCast O .optNone (.optionalTy pt) targetType flags =
        .ok { success := true, destVal := some .optNone,
              destTouched := true, srcConsumed := flags.takeOnSuccess }) ∧
    (targetType.isOptionalKind = false →
      swift_dynamicCast O .optNone (.optionalTy pt) targetType flags =
        _fail .optNone (.optionalTy pt) targetType flags) := by
  constructor
  · rintro rfl
    have hch : checkDynamicCastFromOptional O .optNone (.optionalTy pt)
        (.optionalTy u) flags =
        .ok (.done { success := true, destVal := some .optNone,
                     destTouched := true,
                     srcConsumed := flags.takeOnSuccess }) := by
      unfold checkDynamicCastFromOptional checkDynamicCastFromOptionalTag
      simp [swift_getEnumCaseSinglePayload, _succeed]
    unfold swift_dynamicCast
    split
    case h_1 e heq =>
      rw [hch] at heq
      simp at heq
    case h_2 r2 heq =>
      rw [hch] at heq
      simp only [Except.ok.injEq] at heq
      cases heq
      rfl
    case h_3 srcType2 src2 preT preC heq =>
      rw [hch] at heq
      simp at heq
  · intro hopt
    have hch : checkDynamicCastFromOptional O .optNone (.optionalTy pt)
        targetType flags =
        (match _fail .optNone (.optionalTy pt) targetType flags with
         | .error e => .error e
         | .ok r => .ok (.done r)) := by
      unfold checkDynamicCastFromOptional checkDynamicCastFromOptionalTag
      cases targetType <;>
        simp_all [TypeDesc.isExistentialKind, TypeDesc.isOptionalKind,
          swift_getEnumCaseSinglePayload]
    cases hu : flags.unconditional
    · have hf : _fail .optNone (.optionalTy pt) targetType flags =
          .ok { success := false, destVal := none, destTouched := false,
                srcConsumed := flags.destroyOnFailure } := by
        unfold _fail
        rw [hu]
        rfl
      rw [hf] at hch
      unfold swift_dynamicCast
      split
      case h_1 e heq =>
        rw [hch] at heq
        simp at heq
      case h_2 r2 heq =>
        rw [hch] at heq
        simp only [Except.ok.injEq] at heq
        cases heq
        rw [hf]
      case h_3 srcType2 src2 preT preC heq =>
        rw [hch] at heq
        simp at heq
    · have hf : _fail .optNone (.optionalTy pt) targetType flags =
          .error (.optionalTy pt, targetType) := by
        unfold _fail
        rw [hu]
        rfl
      rw [hf] at hch
      unfold swift_dynamicCast
      split
      case h_1 e heq =>
        rw [hch] at heq
        simp only [Except.error.injEq] at heq
        cases heq
        rw [hf]
      case h_2 r2 heq =>
        rw [hch] at heq
        simp at heq
      case h_3 srcType2 src2 preT preC heq =>
        rw [hch] at heq
        simp at heq

theorem C4_empty_optional_witness :
    swift_dynamicCast emptyOracle .optNone (.optionalTy (.structTy 1))
      (.optionalTy (.structTy 2)) .default =
      .ok { success := true, destVal := some .optNone, destTouched := true,
            srcConsumed := false } ∧
    swift_dynamicCast emptyOracle .optNone (.optionalTy (.structTy 1))
      (.structTy 2) .default =
      _fail .optNone (.optionalTy (.structTy 1)) (.structTy 2) .default :=
  ⟨(C4_empty_optional emptyOracle (.structTy 1) (.structTy 2)
      (.optionalTy (.structTy 2)) .default rfl).1 rfl,
   (C4_empty_optional emptyOracle (.structTy 1) (.structTy 2)
      (.structTy 2) .default rfl).2 rfl⟩

/-- The conjunction of the container permissions `findDynamicValueAndType`
traverses: error boxes never permit taking; opaque containers defer to
their payload; everything else permits it. -/
def mayTakeChain : Value → TypeDesc → Bool
  | _, .existentialTy .errorRepr _ _ => false
  | v, .existentialTy .opaqueRepr _ _ =>
    (match v with
     | .existOpaque innerType _ innerValue => mayTakeChain innerValue innerType
     | v2 => mayTakeChain v2 (.structTy 0))
  | _, _ => true
termination_by v t => (v.depth, t.depth)
decreasing_by
  · exact Prod.Lex.left _ _ (by simp [Value.depth])
  · exact Prod.Lex.right _ (by simp [TypeDesc.depth])

theorem findDyn_canTake (v : Value) (t : TypeDesc) (c a : Bool) :
    (findDynamicValueAndType v t c a).canTake = (c && mayTakeChain v t) := by
  induction v, t, c, a using findDynamicValueAndType.induct <;>
    simp_all [findDynamicValueAndType, mayTakeChain, Bool.and_assoc]

/-- C9: `findDynamicValueAndType` mutates nothing — in particular it
performs no deallocation, which is the caller's duty via
`shouldDeallocateSource` — and the takability flag it reports is
exactly the caller's initial takability intersected with every
traversed container's permission to take; an error-box representation
forces takability to false (the boxed value is only ever copied). -/
theorem C9_findDynamicValueAndType_frame :
    (∀ v t c a, (findDynamicValueAndType v t c a).canTake =
      (c && mayTakeChain v t)) ∧
    (∀ v cb ps c a,
      (findDynamicValueAndType v (.existentialTy .errorRepr cb ps)
        c a).canTake = false) := by
  constructor
  · exact findDyn_canTake
  · intro v cb ps c a
    rw [findDyn_canTake]
    simp [mayTakeChain]

/-! ## Identity-cast infrastructure -/

/-- A non-Optional source type skips the Optional unwrapping stage. -/
theorem check_nonoptional (O : Oracle) (src : Value)
    (srcType targetType : TypeDesc) (flags : DynamicCastFlags)
    (hd : srcType.isOptionalKind = false) :
    checkDynamicCastFromOptional O src srcType targetType flags =
      .ok (.cont srcType src false false) := by
  cases srcType <;>
    simp_all [checkDynamicCastFromOptional, TypeDesc.isOptionalKind]

/-- The dispatcher on a continuation with an existential target. -/
theorem cast_cont_target_existential (O : Oracle) (src : Value)
    (srcType : TypeDesc) (r : ExistRepr) (cb : Bool)
    (ps : List ProtocolDesc) (flags : DynamicCastFlags)
    (pt2 : TypeDesc) (v2 : Value) (a b : Bool)
    (hch : checkDynamicCastFromOptional O src srcType
      (.existentialTy r cb ps) flags = .ok (.cont pt2 v2 a b)) :
    swift_dynamicCast O src srcType (.existentialTy r cb ps) flags =
      addPreAttempt a b (_dynamicCastToExistential O v2 pt2 r cb ps flags) := by
  unfold swift_dynamicCast
  split
  case h_1 e heq =>
    rw [hch] at heq
    simp at heq
  case h_2 r2 heq =>
    rw [hch] at heq
    simp at heq
  case h_3 pt3 v3 a3 b3 heq =>
    rw [hch] at heq
    simp only [Except.ok.injEq, OptCheck.cont.injEq] at heq
    obtain ⟨h1, h2, h3, h4⟩ := heq
    subst h1
    subst h2
    subst h3
    subst h4
    rfl

/-- The dispatcher on a continuation with a metatype target. -/
theorem cast_cont_target_metatype (O : Oracle) (src : Value)
    (srcType ti : TypeDesc) (flags : DynamicCastFlags)
    (pt2 : TypeDesc) (v2 : Value) (a b : Bool)
    (hch : checkDynamicCastFromOptional O src srcType
      (.metatypeTy ti) flags = .ok (.cont pt2 v2 a b)) :
    swift_dynamicCast O src srcType (.metatypeTy ti) flags =
      addPreAttempt a b (_dynamicCastToMetatype v2 pt2 ti flags) := by
  unfold swift_dynamicCast
  split
  case h_1 e heq =>
    rw [hch] at heq
    simp at heq
  case h_2 r2 heq =>
    rw [hch] at heq
    simp at heq
  case h_3 pt3 v3 a3 b3 heq =>
    rw [hch] at heq
    simp only [Except.ok.injEq, OptCheck.cont.injEq] at heq
    obtain ⟨h1, h2, h3, h4⟩ := heq
    subst h1
    subst h2
    subst h3
    subst h4
    rfl

/-- The dispatcher on a continuation with an existential-metatype
target. -/
theorem cast_cont_target_existmetatype (O : Oracle) (src : Value)
    (srcType ti : TypeDesc) (flags : DynamicCastFlags)
    (pt2 : TypeDesc) (v2 : Value) (a b : Bool)
    (hch : checkDynamicCastFromOptional O src srcType
      (.existentialMetatypeTy ti) flags = .ok (.cont pt2 v2 a b)) :
    swift_dynamicCast O src srcType (.existentialMetatypeTy ti) flags =
      addPreAttempt a b
        (_dynamicCastToExistentialMetatype O v2 pt2 ti flags) := by
  unfold swift_dynamicCast
  split
  case h_1 e heq =>
    rw [hch] at heq
    simp at heq
  case h_2 r2 heq =>
    rw [hch] at heq
    simp at heq
  case h_3 pt3 v3 a3 b3 heq =>
    rw [hch] at heq
    simp only [Except.ok.injEq, OptCheck.cont.injEq] at heq
    obtain ⟨h1, h2, h3, h4⟩ := heq
    subst h1
    subst h2
    subst h3
    subst h4
    rfl

/-- The dispatcher on a continuation with a function target. -/
theorem cast_cont_target_function (O : Oracle) (src : Value)
    (srcType : TypeDesc) (fc : Nat) (ft : Bool) (fa fr : TypeDesc)
    (flags : DynamicCastFlags) (pt2 : TypeDesc) (v2 : Value) (a b : Bool)
    (hch : checkDynamicCastFromOptional O src srcType
      (.functionTy fc ft fa fr) flags = .ok (.cont pt2 v2 a b)) :
    swift_dynamicCast O src srcType (.functionTy fc ft fa fr) flags =
      addPreAttempt a b
        (_dynamicCastToFunction O v2 pt2 (.functionTy fc ft fa fr) flags) := by
  unfold swift_dynamicCast
  split
  case h_1 e heq =>
    rw [hch] at heq
    simp at heq
  case h_2 r2 heq =>
    rw [hch] at heq
    simp at heq
  case h_3 pt3 v3 a3 b3 heq =>
    rw [hch] at heq
    simp only [Except.ok.injEq, OptCheck.cont.injEq] at heq
    obtain ⟨h1, h2, h3, h4⟩ := heq
    subst h1
    subst h2
    subst h3
    subst h4
    rfl

/-- The dispatcher on a class-kind continuation with a class target. -/
theorem cast_cont_target_class (O : Oracle) (src : Value)
    (srcType targetType : TypeDesc) (flags : DynamicCastFlags)
    (pt2 : TypeDesc) (v2 : Value) (a b : Bool)
    (htgt : targetType.isClassKind = true)
    (hcls : pt2.isClassKind = true)
    (hch : checkDynamicCastFromOptional O src srcType targetType flags =
      .ok (.cont pt2 v2 a b)) :
    swift_dynamicCast O src srcType targetType flags =
      addPreAttempt a b
        (_dynamicCastUnknownClassIndirect v2 targetType flags) := by
  unfold swift_dynamicCast
  split
  case h_1 e heq =>
    rw [hch] at heq
    simp at heq
  case h_2 r2 heq =>
    rw [hch] at heq
    simp at heq
  case h_3 pt3 v3 a3 b3 heq =>
    rw [hch] at heq
    simp only [Except.ok.injEq, OptCheck.cont.injEq] at heq
    obtain ⟨h1, h2, h3, h4⟩ := heq
    subst h1
    subst h2
    subst h3
    subst h4
    cases targetType <;> simp_all [TypeDesc.isClassKind] <;>
      (cases pt2 <;> simp_all [TypeDesc.isClassKind])

/-- Is this a plain leaf metadata kind (no dispatch structure)? -/
def TypeDesc.isLeafKind : TypeDesc → Bool
  | .structTy _ | .enumTy _ | .tupleTy _ | .opaqueTy _ | .heapLocalTy _
  | .heapGenericLocalTy _ | .errorObjectTy _ => true
  | _ => false

/-- The dispatcher on a continuation whose type already equals a
leaf-kind target: the exact-match rule succeeds. -/
theorem cast_cont_target_leaf (O : Oracle) (src : Value)
    (srcType targetType : TypeDesc) (flags : DynamicCastFlags)
    (v2 : Value) (a b : Bool)
    (htgt : targetType.isLeafKind = true)
    (hch : checkDynamicCastFromOptional O src srcType targetType flags =
      .ok (.cont targetType v2 a b)) :
    swift_dynamicCast O src srcType targetType flags =
      addPreAttempt a b (_succeed v2 targetType flags) := by
  unfold swift_dynamicCast
  split
  case h_1 e heq =>
    rw [hch] at heq
    simp at heq
  case h_2 r2 heq =>
    rw [hch] at heq
    simp at heq
  case h_3 pt3 v3 a3 b3 heq =>
    rw [hch] at heq
    simp only [Except.ok.injEq, OptCheck.cont.injEq] at heq
    obtain ⟨h1, h2, h3, h4⟩ := heq
    subst h1
    subst h2
    subst h3
    subst h4
    cases targetType <;> simp_all [TypeDesc.isLeafKind]

/-- The dispatcher on a non-existential continuation with an Optional
target: recurse into the payload area and stamp the `.some` tag. -/
theorem cast_cont_target_optional (O : Oracle) (src : Value)
    (srcType u : TypeDesc) (flags : DynamicCastFlags)
    (pt2 : TypeDesc) (v2 : Value) (a b : Bool)
    (hne : pt2.isExistentialKind = false)
    (hch : checkDynamicCastFromOptional O src srcType (.optionalTy u)
      flags = .ok (.cont pt2 v2 a b)) :
    swift_dynamicCast O src srcType (.optionalTy u) flags =
      addPreAttempt a b (optStampRes (swift_dynamicCast O v2 pt2 u flags)) := by
  conv_lhs => unfold swift_dynamicCast
  split
  case h_1 e heq =>
    rw [hch] at heq
    simp at heq
  case h_2 r2 heq =>
    rw [hch] at heq
    simp at heq
  case h_3 pt3 v3 a3 b3 heq =>
    rw [hch] at heq
    simp only [Except.ok.injEq, OptCheck.cont.injEq] at heq
    obtain ⟨h1, h2, h3, h4⟩ := heq
    subst h1
    subst h2
    subst h3
    subst h4
    dsimp only
    cases pt2 <;>
      first
      | rfl
      | simp [TypeDesc.isExistentialKind] at hne

/-- The dispatcher on an existential continuation with an Optional
target: cast out of the existential without unwrapping the target. -/
theorem cast_cont_target_optional_exist (O : Oracle) (src : Value)
    (srcType u : TypeDesc) (flags : DynamicCastFlags)
    (er : ExistRepr) (ecb : Bool) (eps : List ProtocolDesc) (v2 : Value)
    (a b : Bool)
    (hch : checkDynamicCastFromOptional O src srcType (.optionalTy u)
      flags = .ok (.cont (.existentialTy er ecb eps) v2 a b)) :
    swift_dynamicCast O src srcType (.optionalTy u) flags =
      addPreAttempt a b
        (_dynamicCastFromExistential O v2 (.existentialTy er ecb eps)
          (.optionalTy u) flags) := by
  unfold swift_dynamicCast
  split
  case h_1 e heq =>
    rw [hch] at heq
    simp at heq
  case h_2 r2 heq =>
    rw [hch] at heq
    simp at heq
  case h_3 pt3 v3 a3 b3 heq =>
    rw [hch] at heq
    simp only [Except.ok.injEq, OptCheck.cont.injEq] at heq
    obtain ⟨h1, h2, h3, h4⟩ := heq
    subst h1
    subst h2
    subst h3
    subst h4
    rfl

/-- The dispatcher on an already-`done` Optional check. -/
theorem cast_done (O : Oracle) (src : Value)
    (srcType targetType : TypeDesc) (flags : DynamicCastFlags) (r : CastRes)
    (hch : checkDynamicCastFromOptional O src srcType targetType flags =
      .ok (.done r)) :
    swift_dynamicCast O src srcType targetType flags = .ok r := by
  unfold swift_dynamicCast
  split
  case h_1 e heq =>
    rw [hch] at heq
    simp at heq
  case h_2 r2 heq =>
    rw [hch] at heq
    simp only [Except.ok.injEq, OptCheck.done.injEq] at heq
    rw [heq]
  case h_3 pt3 v3 a3 b3 heq =>
    rw [hch] at heq
    simp at heq

/-- For a non-existential type the projection performed by
`findDynamicValueAndType` is independent of the takability and address
flags, which are passed through unchanged. -/
theorem findDyn_flags_transfer (p : Value) (d : TypeDesc) (c a c2 a2 : Bool)
    (hne : d.isExistentialKind = false) :
    findDynamicValueAndType p d c a =
      { value := (findDynamicValueAndType p d c2 a2).value,
        type := (findDynamicValueAndType p d c2 a2).type,
        canTake := c, addrSame := a } := by
  cases d <;>
    simp_all [findDynamicValueAndType, TypeDesc.isExistentialKind]

/-- Constructing an opaque-representation existential: when the
projected dynamic value conforms, the destination receives an inline
container of the dynamic type and value. -/
theorem toExistential_opaque_eval (O : Oracle) (src : Value)
    (srcType : TypeDesc) (p : Value) (dt : TypeDesc) (ct ad : Bool)
    (cb : Bool) (ps : List ProtocolDesc)
    (hfd : findDynamicValueAndType src srcType true true =
      { value := p, type := dt, canTake := ct, addrSame := ad })
    (hconf : (_conformsToProtocols O (some p) dt ps true).1 = true) :
    _dynamicCastToExistential O src srcType .opaqueRepr cb ps .default =
      .ok { success := true, destVal := some (.existOpaque dt false p),
            destTouched := true, srcConsumed := false } := by
  have hp := (Prod.mk.eta
    (p := _conformsToProtocols O (some p) dt ps true)).symm
  rw [hconf] at hp
  unfold _dynamicCastToExistential
  simp only [hfd]
  rw [hp]
  simp [shouldDeallocateSource, DynamicCastFlags.default]

/-- Constructing a class-representation existential from a conforming
reference. -/
theorem toExistential_class_eval (O : Oracle) (src : Value)
    (srcType : TypeDesc) (o : Nat) (chain : List Nat) (ct ad : Bool)
    (cb : Bool) (ps : List ProtocolDesc)
    (hfd : findDynamicValueAndType src srcType true true =
      { value := .ref o chain, type := .classTy chain, canTake := ct,
        addrSame := ad })
    (hconf : (_conformsToProtocols O (some (.ref o chain))
      (.classTy chain) ps true).1 = true) :
    _dynamicCastToExistential O src srcType .classRepr cb ps .default =
      .ok { success := true, destVal := some (.existClass (.ref o chain)),
            destTouched := true, srcConsumed := false } := by
  have hp := (Prod.mk.eta
    (p := _conformsToProtocols O (some (.ref o chain))
      (.classTy chain) ps true)).symm
  rw [hconf] at hp
  unfold _dynamicCastToExistential
  simp only [hfd]
  rw [hp]
  simp [shouldDeallocateSource, DynamicCastFlags.default]

/-- Constructing an error-box existential from a conforming payload. -/
theorem toExistential_error_eval (O : Oracle) (src : Value)
    (srcType : TypeDesc) (p : Value) (dt : TypeDesc) (ct ad : Bool)
    (cb : Bool) (ps : List ProtocolDesc)
    (hfd : findDynamicValueAndType src srcType true true =
      { value := p, type := dt, canTake := ct, addrSame := ad })
    (hconf : (_conformsToProtocols O (some p) dt ps true).1 = true) :
    _dynamicCastToExistential O src srcType .errorRepr cb ps .default =
      .ok { success := true, destVal := some (.errorBox dt p),
            destTouched := true, srcConsumed := false } := by
  have hp := (Prod.mk.eta
    (p := _conformsToProtocols O (some p) dt ps true)).symm
  rw [hconf] at hp
  unfold _dynamicCastToExistential
  simp only [hfd]
  rw [hp]
  simp [shouldDeallocateSource, DynamicCastFlags.default]

/-- A metadata kind whose metatype is an instance of itself: any
non-class kind (descriptor equality), and any class with a nonempty
ancestry chain. -/
def wfMeta : TypeDesc → Bool
  | .classTy c => !c.isEmpty
  | .objcWrapper c => !c.isEmpty
  | .foreignClassTy c => !c.isEmpty
  | _ => true

theorem dynamicCastMetatype_self (i : TypeDesc) (h : wfMeta i = true) :
    swift_dynamicCastMetatype i i = some i := by
  cases i
  case classTy c =>
    have hw : (_dynamicCastClassMetatype c c).isSome = true :=
      (dynamicCastClassMetatype_isSome c c).mpr
        ⟨List.suffix_refl c, by cases c <;> simp_all [wfMeta]⟩
    simp [swift_dynamicCastMetatype, swift_dynamicCastObjCClassMetatype, hw]
  case objcWrapper c =>
    have hw : (_dynamicCastClassMetatype c c).isSome = true :=
      (dynamicCastClassMetatype_isSome c c).mpr
        ⟨List.suffix_refl c, by cases c <;> simp_all [wfMeta]⟩
    simp [swift_dynamicCastMetatype, swift_dynamicCastObjCClassMetatype, hw]
  case foreignClassTy c =>
    have hw : (_dynamicCastClassMetatype c c).isSome = true :=
      (dynamicCastClassMetatype_isSome c c).mpr
        ⟨List.suffix_refl c, by cases c <;> simp_all [wfMeta]⟩
    simp [swift_dynamicCastMetatype, swift_dynamicCastForeignClassMetatype,
      hw]
  all_goals simp [swift_dynamicCastMetatype]

theorem metatypeToMetatype_self (i : TypeDesc) (h : wfMeta i = true) :
    _dynamicCastMetatypeToMetatype i i .default =
      .ok { success := true, destVal := some (.metatypeVal i),
            destTouched := true, srcConsumed := false } := by
  unfold _dynamicCastMetatypeToMetatype
  rw [if_neg (by simp [DynamicCastFlags.default])]
  rw [dynamicCastMetatype_self i h]

/-- A stored metatype satisfying an existential-metatype bound: at an
existential instance type the metatype must conform to the protocol
list; at a deeper existential-metatype bound it must itself be a
concrete metatype whose instance type satisfies the inner bound. -/
def wfStoredExistMeta (O : Oracle) : TypeDesc → TypeDesc → Bool
  | m, .existentialTy _ _ ps => (_conformsToProtocols O none m ps true).1
  | .metatypeTy m2, .existentialMetatypeTy inner => wfStoredExistMeta O m2 inner
  | _, _ => false

/-- Success of the conformance check does not depend on whether
witness tables are being written. -/
theorem conformsToProtocols_fst (O : Oracle) (val : Option Value)
    (t : TypeDesc) (ps : List ProtocolDesc) (w1 w2 : Bool) :
    (_conformsToProtocols O val t ps w1).1 =
      (_conformsToProtocols O val t ps w2).1 := by
  induction ps with
  | nil => rfl
  | cons p rest ih =>
    have hpc : (_conformsToProtocol O val t p w1).1 =
        (_conformsToProtocol O val t p w2).1 := by
      unfold _conformsToProtocol
      split
      · split <;> rfl
      · split
        · split <;> rfl
        · rfl
    simp only [_conformsToProtocols]
    rcases hc1 : _conformsToProtocol O val t p w1 with ⟨b1, ww1⟩
    rcases hc2 : _conformsToProtocol O val t p w2 with ⟨b2, ww2⟩
    rw [hc1, hc2] at hpc
    simp only at hpc
    subst hpc
    cases b1
    · rfl
    · simp only []
      exact ih

theorem metaToExistMeta_eval (O : Oracle) (m i : TypeDesc) (w : Bool)
    (h : wfStoredExistMeta O m i = true) :
    ∃ D, _dynamicCastMetatypeToExistentialMetatype O m i .default w =
      .ok { success := true,
            destVal := if w then some (.metatypeVal m) else none,
            destTouched := D, srcConsumed := false } ∧
      (w = true → D = true) := by
  induction i generalizing m w
  case existentialTy r cb ps =>
    simp only [wfStoredExistMeta] at h
    cases w
    · have hfst : (_conformsToProtocols O none m ps false).1 = true := by
        rw [conformsToProtocols_fst O none m ps false true]
        exact h
      have hp := (Prod.mk.eta
        (p := _conformsToProtocols O none m ps false)).symm
      rw [hfst] at hp
      refine ⟨!(_conformsToProtocols O none m ps false).2.isEmpty, ?_,
        by simp⟩
      conv_lhs => unfold _dynamicCastMetatypeToExistentialMetatype
      dsimp only
      rw [hp]
      simp
    · have hp := (Prod.mk.eta
        (p := _conformsToProtocols O none m ps true)).symm
      rw [h] at hp
      refine ⟨true, ?_, fun _ => rfl⟩
      conv_lhs => unfold _dynamicCastMetatypeToExistentialMetatype
      dsimp only
      rw [hp]
      simp
  case existentialMetatypeTy ii ih =>
    rcases m with _ | _ | _ | _ | _ | _ | _ | _ | _ | ⟨m2⟩ | _ | _ | _ | _ | _ | _ | _
    case metatypeTy =>
      simp only [wfStoredExistMeta] at h
      obtain ⟨D, hD, hDw⟩ := ih m2 false h
      refine ⟨w || D, ?_, fun hw => by rw [hw]; rfl⟩
      conv_lhs => unfold _dynamicCastMetatypeToExistentialMetatype
      dsimp only
      rw [hD]
      cases w <;> simp
    all_goals simp [wfStoredExistMeta] at h
  all_goals simp [wfStoredExistMeta] at h

/-- The indirect class-instance cast succeeds and stores the same
reference when the target class lies on the ancestry chain. -/
theorem indirect_id (o : Nat) (dyn : List Nat) (targetType : TypeDesc)
    (c : List Nat)
    (htgt : targetType = .classTy c ∨ targetType = .objcWrapper c ∨
      targetType = .foreignClassTy c)
    (hne : c ≠ []) (hsuf : c <:+ dyn) :
    _dynamicCastUnknownClassIndirect (.ref o dyn) targetType .default =
      .ok { success := true, destVal := some (.ref o dyn),
            destTouched := true, srcConsumed := false } := by
  have hwalk : (_dynamicCastClassMetatype dyn c).isSome = true :=
    (dynamicCastClassMetatype_isSome dyn c).mpr ⟨hsuf, hne⟩
  rcases htgt with rfl | rfl | rfl <;>
    simp [_dynamicCastUnknownClassIndirect, swift_dynamicCastUnknownClass,
      swift_dynamicCastClass, swift_dynamicCastObjCClass,
      swift_dynamicCastForeignClass, isObjCTaggedPointerOrNull, objIsaChain,
      hwalk, DynamicCastFlags.default]

/-- Well-formed values: the value's representation matches its type's
and the representation invariants the runtime relies on hold — a
reference's dynamic class descends from its static class; a stored
metatype matches its static metatype (with a real ancestry chain for
class kinds) or satisfies its existential-metatype bound; an
existential container is properly formed (inline, holding a payload at
its own concrete — non-Optional, non-existential — dynamic type) and
its payload conforms to the protocol bound per the oracle. -/
def WFV (O : Oracle) : Value → TypeDesc → Bool
  | .ref _ dynChain, .classTy c =>
    decide (c ≠ []) && decide (c <:+ dynChain)
  | .ref _ dynChain, .objcWrapper c =>
    decide (c ≠ []) && decide (c <:+ dynChain)
  | .ref _ dynChain, .foreignClassTy c =>
    decide (c ≠ []) && decide (c <:+ dynChain)
  | .leaf _, .structTy _ => true
  | .leaf _, .enumTy _ => true
  | .leaf _, .tupleTy _ => true
  | .leaf _, .opaqueTy _ => true
  | .leaf _, .heapLocalTy _ => true
  | .leaf _, .heapGenericLocalTy _ => true
  | .leaf _, .errorObjectTy _ => true
  | .funcVal _, .functionTy _ _ _ _ => true
  | .optNone, .optionalTy _ => true
  | .optSome w, .optionalTy u => WFV O w u
  | .metatypeVal m, .metatypeTy i => decide (m = i) && wfMeta i
  | .metatypeVal m, .existentialMetatypeTy i => wfStoredExistMeta O m i
  | .existClass (.ref o dynChain), .existentialTy .classRepr _ ps =>
    (_conformsToProtocols O (some (.ref o dynChain)) (.classTy dynChain)
      ps true).1
  | .existOpaque d ool p, .existentialTy .opaqueRepr _ ps =>
    !ool && !d.isOptionalKind && !d.isExistentialKind &&
    decide (findDynamicValueAndType p d true true =
      { value := p, type := d, canTake := true, addrSame := true }) &&
    (_conformsToProtocols O (some p) d ps true).1
  | .errorBox d p, .existentialTy .errorRepr _ ps =>
    !d.isOptionalKind && !d.isExistentialKind &&
    decide (findDynamicValueAndType p d true true =
      { value := p, type := d, canTake := true, addrSame := true }) &&
    (_conformsToProtocols O (some p) d ps true).1
  | _, _ => false

/-- An identity cast of a leaf-kind value. -/
theorem leaf_identity (O : Oracle) (dat : Nat) (T : TypeDesc)
    (hleaf : T.isLeafKind = true) :
    swift_dynamicCast O (.leaf dat) T T .default =
      .ok { success := true, destVal := some (.leaf dat),
            destTouched := true, srcConsumed := false } := by
  have hno : T.isOptionalKind = false := by
    cases T <;> simp_all [TypeDesc.isLeafKind, TypeDesc.isOptionalKind]
  rw [cast_cont_target_leaf O (.leaf dat) T T .default (.leaf dat) false
    false hleaf (check_nonoptional O (.leaf dat) T T .default hno)]
  simp [addPreAttempt, _succeed, DynamicCastFlags.default]

/-- Wrapping an identity cast of the payload into an Optional target of
a non-existential payload type. -/
theorem optSome_identity_step (O : Oracle) (w : Value) (u : TypeDesc)
    (hne : u.isExistentialKind = false)
    (hid : swift_dynamicCast O w u u .default =
      .ok { success := true, destVal := some w, destTouched := true,
            srcConsumed := false }) :
    swift_dynamicCast O (.optSome w) (.optionalTy u) (.optionalTy u)
      .default =
      .ok { success := true, destVal := some (.optSome w),
            destTouched := true, srcConsumed := false } := by
  have hch : checkDynamicCastFromOptional O (.optSome w) (.optionalTy u)
      (.optionalTy u) .default = .ok (.cont u w false false) := by
    simp [checkDynamicCastFromOptional, checkDynamicCastFromOptionalTag,
      swift_getEnumCaseSinglePayload, Value.optionalUnwrap]
  rw [cast_cont_target_optional O (.optSome w) (.optionalTy u) u .default u
    w false false hne hch]
  rw [hid]
  simp [addPreAttempt, optStampRes]

/-- Identity casts of well-formed values succeed and deliver the very
same value, releasing nothing under the default flags. -/
theorem identityCast_eval (O : Oracle) (v : Value) (T : TypeDesc)
    (h : WFV O v T = true) :
    swift_dynamicCast O v T T .default =
      .ok { success := true, destVal := some v, destTouched := true,
            srcConsumed := false } := by
  induction v generalizing T
  case ref o dyn =>
    rcases T with ⟨c⟩ | ⟨c⟩ | ⟨c⟩ | _ | _ | _ | _ | _ | _ | _ | _ | _ | _ | _ | _ | _ | _
    case classTy =>
      simp only [WFV, Bool.and_eq_true, decide_eq_true_eq] at h
      obtain ⟨hne, hsuf⟩ := h
      rw [cast_cont_target_class O (.ref o dyn) (.classTy c) (.classTy c)
        .default (.classTy c) (.ref o dyn) false false rfl rfl
        (check_nonoptional O (.ref o dyn) (.classTy c) (.classTy c)
          .default rfl)]
      rw [indirect_id o dyn (.classTy c) c (Or.inl rfl) hne hsuf]
      simp [addPreAttempt]
    case objcWrapper =>
      simp only [WFV, Bool.and_eq_true, decide_eq_true_eq] at h
      obtain ⟨hne, hsuf⟩ := h
      rw [cast_cont_target_class O (.ref o dyn) (.objcWrapper c)
        (.objcWrapper c) .default (.objcWrapper c) (.ref o dyn) false false
        rfl rfl
        (check_nonoptional O (.ref o dyn) (.objcWrapper c) (.objcWrapper c)
          .default rfl)]
      rw [indirect_id o dyn (.objcWrapper c) c (Or.inr (Or.inl rfl)) hne
        hsuf]
      simp [addPreAttempt]
    case foreignClassTy =>
      simp only [WFV, Bool.and_eq_true, decide_eq_true_eq] at h
      obtain ⟨hne, hsuf⟩ := h
      rw [cast_cont_target_class O (.ref o dyn) (.foreignClassTy c)
        (.foreignClassTy c) .default (.foreignClassTy c) (.ref o dyn) false
        false rfl rfl
        (check_nonoptional O (.ref o dyn) (.foreignClassTy c)
          (.foreignClassTy c) .default rfl)]
      rw [indirect_id o dyn (.foreignClassTy c) c (Or.inr (Or.inr rfl)) hne
        hsuf]
      simp [addPreAttempt]
    all_goals simp [WFV] at h
  case classObject meta =>
    rcases T with _ | _ | _ | _ | _ | _ | _ | _ | _ | _ | _ | _ | _ | _ | _ | _ | _ <;>
      simp [WFV] at h
  case leaf dat =>
    rcases T with _ | _ | _ | _ | _ | _ | _ | _ | _ | _ | _ | _ | _ | _ | _ | _ | _ <;>
      first
      | exact leaf_identity O dat _ rfl
      | simp [WFV] at h
  case funcVal dat =>
    rcases T with _ | _ | _ | _ | _ | _ | _ | ⟨fc, ft, fa, fr⟩ | _ | _ | _ | _ | _ | _ | _ | _ | _
    case functionTy =>
      rw [cast_cont_target_function O (.funcVal dat)
        (.functionTy fc ft fa fr) fc ft fa fr .default
        (.functionTy fc ft fa fr) (.funcVal dat) false false
        (check_nonoptional O (.funcVal dat) (.functionTy fc ft fa fr)
          (.functionTy fc ft fa fr) .default rfl)]
      simp [addPreAttempt, _dynamicCastToFunction, _succeed,
        DynamicCastFlags.default]
    all_goals simp [WFV] at h
  case optNone =>
    rcases T with _ | _ | _ | _ | _ | ⟨u⟩ | _ | _ | _ | _ | _ | _ | _ | _ | _ | _ | _
    case optionalTy =>
      refine cast_done O .optNone (.optionalTy u) (.optionalTy u) .default
        _ ?_
      simp [checkDynamicCastFromOptional, checkDynamicCastFromOptionalTag,
        swift_getEnumCaseSinglePayload, _succeed, DynamicCastFlags.default]
    all_goals simp [WFV] at h
  case optSome w ih =>
    rcases T with _ | _ | _ | _ | _ | ⟨u⟩ | _ | _ | _ | _ | _ | _ | _ | _ | _ | _ | _
    case optionalTy =>
      simp only [WFV] at h
      have hch : checkDynamicCastFromOptional O (.optSome w)
          (.optionalTy u) (.optionalTy u) .default =
          .ok (.cont u w false false) := by
        simp [checkDynamicCastFromOptional, checkDynamicCastFromOptionalTag,
          swift_getEnumCaseSinglePayload, Value.optionalUnwrap]
      rcases u with _ | _ | _ | _ | _ | _ | _ | _ | ⟨r2, cb2, ps2⟩ | _ | _ | _ | _ | _ | _ | _ | _
      case existentialTy =>
        rcases r2 with _ | _ | _
        · -- classRepr container
          rcases w with _ | _ | _ | _ | _ | _ | _ | ⟨inner⟩ | _ | _
          case existClass =>
            rcases inner with ⟨o2, dyn2⟩ | _ | _ | _ | _ | _ | _ | _ | _ | _
            case ref =>
              simp only [WFV] at h
              rw [cast_cont_target_optional_exist O _ _ _ .default
                .classRepr cb2 ps2 _ false false hch]
              have hfe : _dynamicCastFromExistential O
                  (.existClass (.ref o2 dyn2))
                  (.existentialTy .classRepr cb2 ps2)
                  (.optionalTy (.existentialTy .classRepr cb2 ps2))
                  .default =
                  swift_dynamicCast O (.ref o2 dyn2) (.classTy dyn2)
                    (.optionalTy (.existentialTy .classRepr cb2 ps2))
                    .default := by
                simp [_dynamicCastFromExistential, Value.existClassInner,
                  swift_getObjectType]
              rw [hfe]
              rw [cast_cont_target_optional O (.ref o2 dyn2)
                (.classTy dyn2) (.existentialTy .classRepr cb2 ps2)
                .default (.classTy dyn2) (.ref o2 dyn2) false false rfl
                (check_nonoptional O (.ref o2 dyn2) (.classTy dyn2)
                  (.optionalTy (.existentialTy .classRepr cb2 ps2))
                  .default rfl)]
              rw [cast_cont_target_existential O (.ref o2 dyn2)
                (.classTy dyn2) .classRepr cb2 ps2 .default (.classTy dyn2)
                (.ref o2 dyn2) false false
                (check_nonoptional O (.ref o2 dyn2) (.classTy dyn2)
                  (.existentialTy .classRepr cb2 ps2) .default rfl)]
              rw [toExistential_class_eval O (.ref o2 dyn2) (.classTy dyn2)
                o2 dyn2 true true cb2 ps2
                (by simp [findDynamicValueAndType, swift_getObjectType]) h]
              simp [addPreAttempt, optStampRes]
            all_goals simp [WFV] at h
          all_goals simp [WFV] at h
        · -- opaqueRepr container
          rcases w with _ | _ | _ | _ | _ | _ | _ | _ | ⟨d, ool, p⟩ | _
          case existOpaque =>
            simp only [WFV, Bool.and_eq_true, Bool.not_eq_true',
              decide_eq_true_eq] at h
            obtain ⟨⟨⟨⟨hool, hdo⟩, hde⟩, hex⟩, hcf⟩ := h
            subst hool
            rw [cast_cont_target_optional_exist O _ _ _ .default
              .opaqueRepr cb2 ps2 _ false false hch]
            have hfe : _dynamicCastFromExistential O (.existOpaque d false p)
                (.existentialTy .opaqueRepr cb2 ps2)
                (.optionalTy (.existentialTy .opaqueRepr cb2 ps2))
                .default =
                opaqueHuskFromRes .default false
                  (swift_dynamicCast O p d
                    (.optionalTy (.existentialTy .opaqueRepr cb2 ps2))
                    .default) := by
              simp [_dynamicCastFromExistential]
            rw [hfe]
            rw [cast_cont_target_optional O p d
              (.existentialTy .opaqueRepr cb2 ps2) .default d p false false
              hde
              (check_nonoptional O p d
                (.optionalTy (.existentialTy .opaqueRepr cb2 ps2)) .default
                hdo)]
            rw [cast_cont_target_existential O p d .opaqueRepr cb2 ps2
              .default d p false false
              (check_nonoptional O p d (.existentialTy .opaqueRepr cb2 ps2)
                .default hdo)]
            rw [toExistential_opaque_eval O p d p d true true cb2 ps2 hex
              hcf]
            simp [addPreAttempt, optStampRes, opaqueHuskFromRes]
          all_goals simp [WFV] at h
        · -- errorRepr container
          rcases w with _ | _ | _ | _ | _ | _ | _ | _ | _ | ⟨d, p⟩
          case errorBox =>
            simp only [WFV, Bool.and_eq_true, Bool.not_eq_true',
              decide_eq_true_eq] at h
            obtain ⟨⟨⟨hdo, hde⟩, hex⟩, hcf⟩ := h
            rw [cast_cont_target_optional_exist O _ _ _ .default
              .errorRepr cb2 ps2 _ false false hch]
            have hfe : _dynamicCastFromExistential O (.errorBox d p)
                (.existentialTy .errorRepr cb2 ps2)
                (.optionalTy (.existentialTy .errorRepr cb2 ps2))
                .default =
                errorShieldRes .default
                  (swift_dynamicCast O p d
                    (.optionalTy (.existentialTy .errorRepr cb2 ps2))
                    .default) := by
              simp [_dynamicCastFromExistential]
              rfl
            rw [hfe]
            rw [cast_cont_target_optional O p d
              (.existentialTy .errorRepr cb2 ps2) .default d p false false
              hde
              (check_nonoptional O p d
                (.optionalTy (.existentialTy .errorRepr cb2 ps2)) .default
                hdo)]
            rw [cast_cont_target_existential O p d .errorRepr cb2 ps2
              .default d p false false
              (check_nonoptional O p d (.existentialTy .errorRepr cb2 ps2)
                .default hdo)]
            rw [toExistential_error_eval O p d p d true true cb2 ps2 hex
              hcf]
            simp [addPreAttempt, optStampRes, errorShieldRes,
              shouldDeallocateSource, DynamicCastFlags.default]
          all_goals simp [WFV] at h
      all_goals exact optSome_identity_step O w _ rfl (ih _ h)
    all_goals simp [WFV] at h
  case metatypeVal m =>
    rcases T with _ | _ | _ | _ | _ | _ | _ | _ | _ | ⟨i⟩ | ⟨j⟩ | _ | _ | _ | _ | _ | _
    case metatypeTy =>
      simp only [WFV, Bool.and_eq_true, decide_eq_true_eq] at h
      obtain ⟨heqm, hwf⟩ := h
      subst heqm
      rw [cast_cont_target_metatype O (.metatypeVal m) (.metatypeTy m) m
        .default (.metatypeTy m) (.metatypeVal m) false false
        (check_nonoptional O (.metatypeVal m) (.metatypeTy m)
          (.metatypeTy m) .default rfl)]
      have htm : _dynamicCastToMetatype (.metatypeVal m) (.metatypeTy m) m
          .default = _dynamicCastMetatypeToMetatype m m .default := by
        simp [_dynamicCastToMetatype, Value.asStoredMetadata]
      rw [htm, metatypeToMetatype_self m hwf]
      simp [addPreAttempt]
    case existentialMetatypeTy =>
      simp only [WFV] at h
      rw [cast_cont_target_existmetatype O (.metatypeVal m)
        (.existentialMetatypeTy j) j .default (.existentialMetatypeTy j)
        (.metatypeVal m) false false
        (check_nonoptional O (.metatypeVal m) (.existentialMetatypeTy j)
          (.existentialMetatypeTy j) .default rfl)]
      have htm : _dynamicCastToExistentialMetatype O (.metatypeVal m)
          (.existentialMetatypeTy j) j .default =
          _dynamicCastMetatypeToExistentialMetatype O m j .default true := by
        simp [_dynamicCastToExistentialMetatype, Value.asStoredMetadata]
      obtain ⟨D, hD, hDw⟩ := metaToExistMeta_eval O m j true h
      rw [htm, hD, hDw rfl]
      simp [addPreAttempt]
    all_goals simp [WFV] at h
  case existClass inner ih =>
    rcases T with _ | _ | _ | _ | _ | _ | _ | _ | ⟨r, cb, ps⟩ | _ | _ | _ | _ | _ | _ | _ | _
    case existentialTy =>
      rcases r with _ | _ | _
      · rcases inner with ⟨o2, dyn2⟩ | _ | _ | _ | _ | _ | _ | _ | _ | _
        case ref =>
          simp only [WFV] at h
          rw [cast_cont_target_existential O (.existClass (.ref o2 dyn2))
            (.existentialTy .classRepr cb ps) .classRepr cb ps .default
            (.existentialTy .classRepr cb ps) (.existClass (.ref o2 dyn2))
            false false
            (check_nonoptional O (.existClass (.ref o2 dyn2))
              (.existentialTy .classRepr cb ps)
              (.existentialTy .classRepr cb ps) .default rfl)]
          rw [toExistential_class_eval O (.existClass (.ref o2 dyn2))
            (.existentialTy .classRepr cb ps) o2 dyn2 true true cb ps
            (by simp [findDynamicValueAndType, Value.existClassInner,
              swift_getObjectType]) h]
          simp [addPreAttempt]
        all_goals simp [WFV] at h
      · simp [WFV] at h
      · simp [WFV] at h
    all_goals simp [WFV] at h
  case existOpaque d ool p ih =>
    rcases T with _ | _ | _ | _ | _ | _ | _ | _ | ⟨r, cb, ps⟩ | _ | _ | _ | _ | _ | _ | _ | _
    case existentialTy =>
      rcases r with _ | _ | _
      · simp [WFV] at h
      · simp only [WFV, Bool.and_eq_true, Bool.not_eq_true',
          decide_eq_true_eq] at h
        obtain ⟨⟨⟨⟨hool, hdo⟩, hde⟩, hex⟩, hcf⟩ := h
        subst hool
        rw [cast_cont_target_existential O (.existOpaque d false p)
          (.existentialTy .opaqueRepr cb ps) .opaqueRepr cb ps .default
          (.existentialTy .opaqueRepr cb ps) (.existOpaque d false p) false
          false
          (check_nonoptional O (.existOpaque d false p)
            (.existentialTy .opaqueRepr cb ps)
            (.existentialTy .opaqueRepr cb ps) .default rfl)]
        rw [toExistential_opaque_eval O (.existOpaque d false p)
          (.existentialTy .opaqueRepr cb ps) p d true true cb ps
          (by simpa [findDynamicValueAndType] using hex) hcf]
        simp [addPreAttempt]
      · simp [WFV] at h
    all_goals simp [WFV] at h
  case errorBox d p ih =>
    rcases T with _ | _ | _ | _ | _ | _ | _ | _ | ⟨r, cb, ps⟩ | _ | _ | _ | _ | _ | _ | _ | _
    case existentialTy =>
      rcases r with _ | _ | _
      · simp [WFV] at h
      · simp [WFV] at h
      · simp only [WFV, Bool.and_eq_true, Bool.not_eq_true',
          decide_eq_true_eq] at h
        obtain ⟨⟨⟨hdo, hde⟩, hex⟩, hcf⟩ := h
        have hff := findDyn_flags_transfer p d false false true true hde
        rw [hex] at hff
        simp only at hff
        rw [cast_cont_target_existential O (.errorBox d p)
          (.existentialTy .errorRepr cb ps) .errorRepr cb ps .default
          (.existentialTy .errorRepr cb ps) (.errorBox d p) false false
          (check_nonoptional O (.errorBox d p)
            (.existentialTy .errorRepr cb ps)
            (.existentialTy .errorRepr cb ps) .default rfl)]
        rw [toExistential_error_eval O (.errorBox d p)
          (.existentialTy .errorRepr cb ps) p d false false cb ps
          (by simpa [findDynamicValueAndType] using hff) hcf]
        simp [addPreAttempt]
    all_goals simp [WFV] at h

/-- C8 refutation: the identity cast is not exact on every value — an
Optional wrapping an opaque existential whose container payload is
itself of Optional type gets flattened: `.some(container-of-nil)` cast
from `Optional<Any>` to `Optional<Any>` comes back as `.none`, not as
the original value. -/
theorem C8_counterexample :
    swift_dynamicCast emptyOracle
      (.optSome (.existOpaque (.optionalTy (.structTy 1)) false .optNone))
      (.optionalTy (.existentialTy .opaqueRepr false []))
      (.optionalTy (.existentialTy .opaqueRepr false [])) .default =
      .ok { success := true, destVal := some .optNone, destTouched := true,
            srcConsumed := false } ∧
    Value.optNone ≠
      Value.optSome (.existOpaque (.optionalTy (.structTy 1)) false
        .optNone) := by
  constructor
  · simp [swift_dynamicCast, checkDynamicCastFromOptional,
      checkDynamicCastFromOptionalTag, swift_getEnumCaseSinglePayload,
      Value.optionalUnwrap, addPreAttempt, _dynamicCastFromExistential,
      opaqueHuskFromRes, _succeed, _maybeDeallocateOpaqueExistential,
      shouldDeallocateSource, DynamicCastFlags.default]
  · intro hx
    cases hx

/-- C8 (amended): for every type `T` of the thirteen kinds and every
well-formed value `v` of `T` whose existential containers hold their
payloads at concrete (non-Optional, non-existential) dynamic types,
casting `v` from `T` to `T` with the default flags succeeds and the
destination holds exactly `v`; without the container restriction the
runtime may renormalise the representation, flattening a nested
Optional (`C8_counterexample`). -/
theorem C8_identity (O : Oracle) (v : Value) (T : TypeDesc)
    (h : WFV O v T = true) :
    swift_dynamicCast O v T T .default =
      .ok { success := true, destVal := some v, destTouched := true,
            srcConsumed := false } :=
  identityCast_eval O v T h

theorem C8_identity_witness :
    WFV emptyOracle (.optSome (.leaf 7)) (.optionalTy (.structTy 1)) =
      true ∧
    swift_dynamicCast emptyOracle (.optSome (.leaf 7))
      (.optionalTy (.structTy 1)) (.optionalTy (.structTy 1)) .default =
      .ok { success := true, destVal := some (.optSome (.leaf 7)),
            destTouched := true, srcConsumed := false } :=
  ⟨rfl, C8_identity emptyOracle (.optSome (.leaf 7))
    (.optionalTy (.structTy 1)) rfl⟩

end SwiftCast
